import Mathlib

/-!
Shallow embedding of the reconciliation core of the SAT × Questor comparison
program (src/core/views.py, src/core/models.py).

Modelling conventions:
* Spreadsheet cells are modelled as `Option String` (a cell is either absent /
  `None` or a string).  The program stringifies every cell it touches, so the
  string-celled universe is the one all verified properties live in.
* Python `Decimal` values are modelled as exact rationals (`ℚ`); the `Decimal`
  string constructor is modelled by `decimalLit?` covering the numeric-literal
  grammar (sign, digits, point, exponent); special values (NaN/Infinity) are
  outside the modelled universe.
* Python `dict`s are modelled as association lists with first-occurrence
  lookup and replace-first-else-append insertion (`dget?` / `dinsert`), which
  coincides with dict semantics because every dict in the program is built
  from empty by keyed assignment.
* `unicodedata.normalize("NFKD", ·)` followed by ASCII re-encoding is modelled
  by `asciiFold`, a table of the Portuguese accented letters (other non-ASCII
  characters are dropped, as the encode/ignore round trip does).
-/

namespace SatQuestor

/-! ## Characters and strings -/

def isWs (c : Char) : Bool :=
  c = ' ' || c = '\t' || c = '\n' || c = '\r'

def isDigitCh (c : Char) : Bool :=
  '0' ≤ c && c ≤ '9'

def isAlphaCh (c : Char) : Bool :=
  ('a' ≤ c && c ≤ 'z') || ('A' ≤ c && c ≤ 'Z')

/-- `\w` of Python's `re` over ASCII: letters, digits, underscore. -/
def isWordCh (c : Char) : Bool :=
  isAlphaCh c || isDigitCh c || c = '_'

def toLowerCh (c : Char) : Char :=
  if 'A' ≤ c && c ≤ 'Z' then Char.ofNat (c.toNat + 32) else c

/-- NFKD + ascii/ignore round trip, restricted to the Latin letters that occur
in Portuguese spreadsheet headers; any other non-ASCII char is dropped. -/
def asciiFold (c : Char) : List Char :=
  if c.toNat < 128 then [c] else
  match c with
  | 'á' | 'à' | 'â' | 'ã' | 'ä' | 'ª' => ['a']
  | 'Á' | 'À' | 'Â' | 'Ã' | 'Ä' => ['A']
  | 'é' | 'è' | 'ê' | 'ë' => ['e']
  | 'É' | 'È' | 'Ê' | 'Ë' => ['E']
  | 'í' | 'ì' | 'î' | 'ï' => ['i']
  | 'Í' | 'Ì' | 'Î' | 'Ï' => ['I']
  | 'ó' | 'ò' | 'ô' | 'õ' | 'ö' | 'º' => ['o']
  | 'Ó' | 'Ò' | 'Ô' | 'Õ' | 'Ö' => ['O']
  | 'ú' | 'ù' | 'û' | 'ü' => ['u']
  | 'Ú' | 'Ù' | 'Û' | 'Ü' => ['U']
  | 'ç' => ['c']
  | 'Ç' => ['C']
  | 'ñ' => ['n']
  | 'Ñ' => ['N']
  | _ => []

def trimLeftCh (p : Char → Bool) (l : List Char) : List Char :=
  l.dropWhile p

def trimCh (p : Char → Bool) (l : List Char) : List Char :=
  ((l.dropWhile p).reverse.dropWhile p).reverse

/-- Python `str.strip()` on a char list. -/
def trimWs (l : List Char) : List Char := trimCh isWs l

def strTrim (s : String) : String := ⟨trimWs s.data⟩

def strLower (s : String) : String := ⟨s.data.map toLowerCh⟩

/-- Remove every (non-overlapping, leftmost-first) occurrence of the
two-character pattern `a b`; models Python `str.replace("R$", "")`. -/
def removePair (a b : Char) : List Char → List Char
  | [] => []
  | [c] => [c]
  | c :: d :: rest =>
    if c = a ∧ d = b then removePair a b rest
    else c :: removePair a b (d :: rest)

/-- `needle` occurs at the start of `l`. -/
def isPrefCh : List Char → List Char → Bool
  | [], _ => true
  | _ :: _, [] => false
  | a :: as, b :: bs => a = b && isPrefCh as bs

/-- `needle` occurs somewhere in `l`. -/
def isSubCh (needle : List Char) : List Char → Bool
  | [] => needle.isEmpty
  | c :: rest => isPrefCh needle (c :: rest) || isSubCh needle rest

/-- Substring containment, Python's `needle in haystack`. -/
def containsSub (haystack needle : String) : Bool :=
  isSubCh needle.data haystack.data

/-! ## Association lists as Python dicts -/

def dget? {κ α : Type} [DecidableEq κ] (m : List (κ × α)) (k : κ) : Option α :=
  (m.find? (fun p => decide (p.1 = k))).map (·.2)

def dinsert {κ α : Type} [DecidableEq κ] : List (κ × α) → κ → α → List (κ × α)
  | [], k, v => [(k, v)]
  | p :: rest, k, v =>
    if p.1 = k then (k, v) :: rest else p :: dinsert rest k v


/-! ## Exact decimal values

Python `Decimal` values are exact scaled integers; we model them as
unnormalised fractions `num / den` whose denominators are powers of ten, so
that every arithmetic step the program performs (construction from a string,
addition, negation, comparison with zero) is exact and kernel-computable.
`toRat` is the numeric value, used by the specification-side statements.
(The 28-significant-digit context rounding of `Decimal` addition is outside
the modelled universe; all sums here are exact.) -/

structure PyDec where
  num : Int
  den : Nat
deriving DecidableEq, Repr

def pzero : PyDec := ⟨0, 1⟩

def PyDec.add (a b : PyDec) : PyDec :=
  ⟨a.num * b.den + b.num * a.den, a.den * b.den⟩

def PyDec.neg (a : PyDec) : PyDec := ⟨-a.num, a.den⟩

/-- Numeric comparison with zero (`Decimal.__eq__` is by value; denominators
are positive powers of ten by construction). -/
def PyDec.isZero (a : PyDec) : Bool := a.num = 0

def PyDec.toRat (a : PyDec) : ℚ := (a.num : ℚ) / (a.den : ℚ)

/-- `m[k] = m.get(k, Decimal("0")) + v` for the monetary accumulation maps. -/
def dadd (m : List (String × PyDec)) (k : String) (v : PyDec) :
    List (String × PyDec) :=
  dinsert m k (((dget? m k).getD pzero).add v)

/-- `sum(m.values(), Decimal("0"))`: Python `sum` is a left fold. -/
def dsum (m : List (String × PyDec)) : PyDec :=
  (m.map (·.2)).foldl PyDec.add pzero

/-! ## Decimal parsing (`_parse_decimal`, views.py 51-60)

`decimalLit?` models the numeric-literal grammar accepted by Python's
`Decimal(str)` constructor: optional surrounding whitespace, optional sign,
`digits[.digits]` or `.digits`, optional exponent.  On acceptance the value
is exact (the constructor does not round). -/

def dig (c : Char) : Nat := c.toNat - 48

def digitsVal (l : List Char) : Nat :=
  l.foldl (fun a c => a * 10 + dig c) 0

/-- Parse the optional exponent suffix of a decimal literal and apply it. -/
def expPart? (mant : PyDec) : List Char → Option PyDec
  | [] => some mant
  | e :: rest =>
    if e = 'e' ∨ e = 'E' then
      let signedRest : Bool × List Char :=
        match rest with
        | '+' :: r => (false, r)
        | '-' :: r => (true, r)
        | r => (false, r)
      let neg := signedRest.1
      let r := signedRest.2
      let ds := r.takeWhile isDigitCh
      if ds = [] ∨ r.dropWhile isDigitCh ≠ [] then none
      else some (if neg then ⟨mant.num, mant.den * 10 ^ digitsVal ds⟩
                 else ⟨mant.num * 10 ^ digitsVal ds, mant.den⟩)
    else none

/-- Unsigned part of a decimal literal: `digits[.digits][exp]` or `.digits[exp]`. -/
def decimalCore? (l : List Char) : Option PyDec :=
  let intPart := l.takeWhile isDigitCh
  let rest1 := l.dropWhile isDigitCh
  match rest1 with
  | [] =>
    if intPart = [] then none
    else expPart? ⟨(digitsVal intPart : Int), 1⟩ []
  | c :: rest2 =>
    if c = '.' then
      let frac := rest2.takeWhile isDigitCh
      let rest3 := rest2.dropWhile isDigitCh
      if intPart = [] ∧ frac = [] then none
      else expPart? ⟨(digitsVal (intPart ++ frac) : Int), 10 ^ frac.length⟩ rest3
    else
      if intPart = [] then none
      else expPart? ⟨(digitsVal intPart : Int), 1⟩ (c :: rest2)

/-- Model of `Decimal(s)` for ordinary (non-NaN, non-Infinity) literals. -/
def decimalLit? (s : String) : Option PyDec :=
  match trimWs s.data with
  | [] => decimalCore? []
  | c :: rest =>
    if c = '+' then decimalCore? rest
    else if c = '-' then (decimalCore? rest).map PyDec.neg
    else decimalCore? (c :: rest)

/-- The normalisation pipeline of `_parse_decimal`: strip, drop `R$` and
spaces, and when exactly one comma is present drop dots (thousands
separators) and turn the comma into the decimal point. -/
def cleanDecimal (str : String) : List Char :=
  let l := trimWs str.data
  let l := removePair 'R' '$' l
  let l := l.filter (fun c => c ≠ ' ')
  if l.count ',' = 1 then
    ((l.filter (fun c => c ≠ '.')).map (fun c => if c = ',' then '.' else c))
  else l

/-- `_parse_decimal` (views.py 51-60): normalise, parse as a `Decimal`,
return 0 on parse failure. -/
def parse_decimal (v : Option String) : PyDec :=
  match v with
  | none => pzero
  | some str => (decimalLit? ⟨cleanDecimal str⟩).getD pzero

/-! ## Calendar dates -/

structure CalDate where
  year : Nat
  month : Nat
  day : Nat
deriving DecidableEq, Repr

/-- Python `date` ordering is lexicographic on (year, month, day). -/
def dateLe (a b : CalDate) : Bool :=
  a.year < b.year ||
  (a.year = b.year && (a.month < b.month ||
    (a.month = b.month && a.day ≤ b.day)))

def isLeap (y : Nat) : Bool :=
  (y % 4 = 0 && y % 100 ≠ 0) || y % 400 = 0

def daysInMonth (y m : Nat) : Nat :=
  if m = 2 then (if isLeap y then 29 else 28)
  else if m = 4 ∨ m = 6 ∨ m = 9 ∨ m = 11 then 30 else 31

/-- Day count since 0000-03-01 of the proleptic Gregorian calendar
(civil-from-days algorithm); models Python `date` arithmetic. -/
def toFixed (y m d : Nat) : Nat :=
  let y1 := if m ≤ 2 then y - 1 else y
  let era := y1 / 400
  let yoe := y1 % 400
  let mp := if m > 2 then m - 3 else m + 9
  let doy := (153 * mp + 2) / 5 + (d - 1)
  let doe := yoe * 365 + yoe / 4 - yoe / 100 + doy
  era * 146097 + doe

/-- Inverse of `toFixed` (days-to-civil algorithm). -/
def fromFixed (n : Nat) : CalDate :=
  let era := n / 146097
  let doe := n % 146097
  let yoe := (doe - doe / 1460 + doe / 36524 - doe / 146096) / 365
  let y1 := yoe + era * 400
  let doy := doe - (365 * yoe + yoe / 4 - yoe / 100)
  let mp := (5 * doy + 2) / 153
  let d := doy - (153 * mp + 2) / 5 + 1
  let m := if mp < 10 then mp + 3 else mp - 9
  { year := if m ≤ 2 then y1 + 1 else y1, month := m, day := d }

/-! ## `strptime` model

CPython's `_strptime` compiles each format to a regex; we model the regex
alternation per directive, in the same alternative order, with full
backtracking, and then the `datetime(...)` construction check (calendar
validity).  A literal space in a format matches one or more whitespace
characters (`\s+`), other literals match exactly. -/

inductive FTok
  | fd | fm | fy | fY | fH | fMi | fS
  | lit (c : Char)
  | sp
deriving DecidableEq

/-- `%d` ~ `3[01]|[12]\d|0[1-9]|[1-9]`, alternatives in order. -/
def altD : List Char → List (Nat × List Char)
  | c1 :: c2 :: rest =>
    (if c1 = '3' ∧ (c2 = '0' ∨ c2 = '1') then [(30 + dig c2, rest)] else []) ++
    (if (c1 = '1' ∨ c1 = '2') ∧ isDigitCh c2 then [(10 * dig c1 + dig c2, rest)] else []) ++
    (if c1 = '0' ∧ ('1' ≤ c2 ∧ c2 ≤ '9') then [(dig c2, rest)] else []) ++
    (if '1' ≤ c1 ∧ c1 ≤ '9' then [(dig c1, c2 :: rest)] else [])
  | [c1] => if '1' ≤ c1 ∧ c1 ≤ '9' then [(dig c1, [])] else []
  | [] => []

/-- `%m` ~ `1[0-2]|0[1-9]|[1-9]`. -/
def altM : List Char → List (Nat × List Char)
  | c1 :: c2 :: rest =>
    (if c1 = '1' ∧ (c2 = '0' ∨ c2 = '1' ∨ c2 = '2') then [(10 + dig c2, rest)] else []) ++
    (if c1 = '0' ∧ ('1' ≤ c2 ∧ c2 ≤ '9') then [(dig c2, rest)] else []) ++
    (if '1' ≤ c1 ∧ c1 ≤ '9' then [(dig c1, c2 :: rest)] else [])
  | [c1] => if '1' ≤ c1 ∧ c1 ≤ '9' then [(dig c1, [])] else []
  | [] => []

/-- `%y` ~ `\d\d` (exactly two digits). -/
def altY2 : List Char → List (Nat × List Char)
  | c1 :: c2 :: rest =>
    if isDigitCh c1 ∧ isDigitCh c2 then [(10 * dig c1 + dig c2, rest)] else []
  | _ => []

/-- `%Y` ~ `\d\d\d\d` (exactly four digits). -/
def altY4 : List Char → List (Nat × List Char)
  | c1 :: c2 :: c3 :: c4 :: rest =>
    if isDigitCh c1 ∧ isDigitCh c2 ∧ isDigitCh c3 ∧ isDigitCh c4 then
      [(1000 * dig c1 + 100 * dig c2 + 10 * dig c3 + dig c4, rest)]
    else []
  | _ => []

/-- `%H` ~ `2[0-3]|[0-1]\d|\d`. -/
def altH : List Char → List (Nat × List Char)
  | c1 :: c2 :: rest =>
    (if c1 = '2' ∧ ('0' ≤ c2 ∧ c2 ≤ '3') then [(20 + dig c2, rest)] else []) ++
    (if (c1 = '0' ∨ c1 = '1') ∧ isDigitCh c2 then [(10 * dig c1 + dig c2, rest)] else []) ++
    (if isDigitCh c1 then [(dig c1, c2 :: rest)] else [])
  | [c1] => if isDigitCh c1 then [(dig c1, [])] else []
  | [] => []

/-- `%M` and `%S` ~ `[0-5]\d|\d`. -/
def altMS : List Char → List (Nat × List Char)
  | c1 :: c2 :: rest =>
    (if ('0' ≤ c1 ∧ c1 ≤ '5') ∧ isDigitCh c2 then [(10 * dig c1 + dig c2, rest)] else []) ++
    (if isDigitCh c1 then [(dig c1, c2 :: rest)] else [])
  | [c1] => if isDigitCh c1 then [(dig c1, [])] else []
  | [] => []

/-- Literal space in a format ~ `\s+` (greedy; followers are never whitespace). -/
def altSp (l : List Char) : List (Nat × List Char) :=
  if (l.takeWhile isWs) = [] then [] else [(0, l.dropWhile isWs)]

structure PF where
  d : Option Nat := none
  m : Option Nat := none
  y2 : Option Nat := none
  y4 : Option Nat := none
deriving DecidableEq, Repr

def altFor (t : FTok) (l : List Char) : List (Nat × List Char) :=
  match t with
  | .fd => altD l
  | .fm => altM l
  | .fy => altY2 l
  | .fY => altY4 l
  | .fH => altH l
  | .fMi => altMS l
  | .fS => altMS l
  | .lit c => (match l with
      | c' :: rest => if c' = c then [(0, rest)] else []
      | [] => [])
  | .sp => altSp l

def pfSet (t : FTok) (v : Nat) (pf : PF) : PF :=
  match t with
  | .fd => { pf with d := some v }
  | .fm => { pf with m := some v }
  | .fy => { pf with y2 := some v }
  | .fY => { pf with y4 := some v }
  | _ => pf

/-- Run a token list against the input, backtracking over alternatives; the
entire input must be consumed. -/
def runFmt : List FTok → List Char → PF → Option PF
  | [], l, pf => if l = [] then some pf else none
  | t :: ts, l, pf =>
    (altFor t l).findSome? (fun vr => runFmt ts vr.2 (pfSet t vr.1 pf))

/-- Python 2-digit year pivot: 0-68 ↦ 2000s, 69-99 ↦ 1900s. -/
def y2map (n : Nat) : Nat := if n ≤ 68 then 2000 + n else 1900 + n

/-- The `datetime(...)` construction check after a successful regex match. -/
def pfDate? (pf : PF) : Option CalDate :=
  let y := match pf.y4, pf.y2 with
    | some y, _ => y
    | none, some n => y2map n
    | none, none => 1900
  let m := pf.m.getD 1
  let d := pf.d.getD 1
  if 1 ≤ y ∧ 1 ≤ m ∧ m ≤ 12 ∧ 1 ≤ d ∧ d ≤ daysInMonth y m then
    some ⟨y, m, d⟩
  else none

/-- `_DT_FMTS` (views.py 153-158), in order. -/
def fmtList : List (List FTok) :=
  [ [.fd, .lit '/', .fm, .lit '/', .fy],
    [.fd, .lit '/', .fm, .lit '/', .fY],
    [.fY, .lit '-', .fm, .lit '-', .fd],
    [.fd, .lit '-', .fm, .lit '-', .fY],
    [.fd, .lit '.', .fm, .lit '.', .fY],
    [.fY, .lit '-', .fm, .lit '-', .fd, .sp, .fH, .lit ':', .fMi],
    [.fY, .lit '-', .fm, .lit '-', .fd, .sp, .fH, .lit ':', .fMi, .lit ':', .fS],
    [.fd, .lit '/', .fm, .lit '/', .fY, .sp, .fH, .lit ':', .fMi],
    [.fd, .lit '/', .fm, .lit '/', .fY, .sp, .fH, .lit ':', .fMi, .lit ':', .fS],
    [.fd, .lit '/', .fm, .lit '/', .fy, .sp, .fH, .lit ':', .fMi],
    [.fd, .lit '/', .fm, .lit '/', .fy, .sp, .fH, .lit ':', .fMi, .lit ':', .fS] ]

/-- `_parse_date_any` (views.py 160-185) on string (or absent) input: strip;
replace `T`→space, drop `Z`, truncate at the first dot (fractional seconds);
try every format in order; finally interpret an all-digits input in
[20000, 80000] as a spreadsheet serial day from epoch 1899-12-30. -/
def parse_date_any (v : Option String) : Option CalDate :=
  match v with
  | none => none
  | some str =>
    let s := trimWs str.data
    if s = [] then none
    else
      let sn := (s.map (fun c => if c = 'T' then ' ' else c)).filter (fun c => c ≠ 'Z')
      let sn := if sn.contains '.' then sn.takeWhile (fun c => c ≠ '.') else sn
      match fmtList.findSome? (fun toks => (runFmt toks sn {}).bind pfDate?) with
      | some d => some d
      | none =>
        if s.all isDigitCh then
          let n := digitsVal s
          if 20000 ≤ n ∧ n ≤ 80000 then
            some (fromFixed (toFixed 1899 12 30 + n))
          else none
        else none

/-- `_competencia_from_date` (views.py 196-197). -/
def competencia_from_date : Option CalDate → Option CalDate
  | some d => some ⟨d.year, d.month, 1⟩
  | none => none

/-! ## Header slugs and key normalisation -/

/-- Replace each run of non-word characters by a single `_`
(`re.sub(r"[^\w]+", "_", ·)`); the flag tracks being inside a run. -/
def collapseAux : Bool → List Char → List Char
  | _, [] => []
  | inRun, c :: rest =>
    if isWordCh c then c :: collapseAux false rest
    else if inRun then collapseAux true rest
    else '_' :: collapseAux true rest

/-- Common core of `_slug` and `_slugify_field`: accent-fold, strip, lower,
collapse non-word runs to `_`, strip `_`. -/
def slugCore (l : List Char) : List Char :=
  trimCh (fun c => c = '_')
    (collapseAux false ((trimWs (l.flatMap asciiFold)).map toLowerCh))

/-- `_slug` (views.py 36-38). -/
def slugStr (s : String) : String :=
  let r := slugCore s.data
  if r = [] then "campo" else ⟨r⟩

/-- `_slug` applied to a raw cell (`str(None) = "None"`). -/
def slugCell : Option String → String
  | none => slugStr "None"
  | some s => slugStr s

/-- `_slugify_field` (views.py 22-34). -/
def slugify_field (c : Option String) : String :=
  let base := match c with | none => "" | some s => s
  let r := slugCore base.data
  let name := if r = [] then "campo".data else r
  let name := if isDigitCh (name.headD ' ') then ("col_".data ++ name) else name
  let nm : String := ⟨name⟩
  if nm ∈ ["class", "def", "return", "yield", "from", "import", "global",
           "lambda", "with", "pass", "raise", "id", "pk", "model", "objects"] then
    nm ++ "_field"
  else nm

/-- `_digits_only` (views.py 89-90). -/
def digits_only (s : String) : String := ⟨s.data.filter isDigitCh⟩

/-- `_norm_doc` (views.py 92-95): (trimmed lower-case raw, digits only). -/
def norm_doc (s : String) : String × String :=
  (strLower (strTrim s), digits_only s)

/-- `_norm_pair` (views.py 97-102): `"raw_doc|raw_ser"` and `"dig_doc|dig_ser"`. -/
def norm_pair (doc serie : String) : String × String :=
  (⟨(strLower (strTrim doc)).data ++ '|' :: (strLower (strTrim serie)).data⟩,
   ⟨(digits_only doc).data ++ '|' :: (digits_only serie).data⟩)

/-- `_norm_txt` (views.py 104-106): accent-fold, lower, drop spaces/hyphens/dots. -/
def norm_txt (s : String) : String :=
  ⟨((s.data.flatMap asciiFold).map toLowerCh).filter
      (fun c => c ≠ ' ' ∧ c ≠ '-' ∧ c ≠ '.')⟩

/-- `_first_key` (views.py 40-49): exact key membership in candidate order,
then substring match against lower-cased keys, again in candidate order. -/
def first_key {α : Type} (d : List (String × α)) (cands : List String) : Option String :=
  match cands.find? (fun c => (dget? d c).isSome) with
  | some c => some c
  | none =>
    let lowMap : List (String × String) :=
      d.foldl (fun m p => dinsert m (strLower p.1) p.1) []
    cands.findSome? (fun c => (lowMap.find? (fun p => containsSub p.1 c)).map (·.2))

/-- `_row_to_norm_dict` (views.py 436-438): slug each header, pair with the
cell at the same index (absent beyond the row's length), stringify and trim
(`""` for `None`). -/
def row_to_norm_dict (headers : List (Option String)) (row : List (Option String)) :
    List (String × String) :=
  (headers.enum).foldl
    (fun m p =>
      let v := (row.getD p.1 none)
      dinsert m (slugCell p.2) (match v with | none => "" | some s => strTrim s))
    []

/-! ## Document classifier and status (views.py 65-148) -/

/-- `_is_cancelado` (views.py 65-66). -/
def is_cancelado (txt : String) : Bool :=
  txt ≠ "" && containsSub (strLower (strTrim txt)) "cancel"

/-- Access-key fallback of `_is_nfe_questor` (views.py 124-133). -/
def nfeChave (d : List (String × String)) : Bool :=
  match first_key d ["chaveacesso", "chave_de_acesso", "chave", "accesskey"] with
  | some k =>
    let digs := digits_only ((dget? d k).getD "")
    if digs.data.length ≥ 22 then
      let modelo : String := ⟨(digs.data.drop 20).take 2⟩
      if modelo = "55" then true
      else if modelo = "65" then false
      else false
    else false
  | none => false

/-- Model-field branch of `_is_nfe_questor` (views.py 116-123). -/
def nfeModelo (d : List (String × String)) : Bool :=
  match first_key d ["modelodocumento", "modelo_documento", "modelo", "mod",
                     "modelo_nf", "modelo_nfe", "modelo_nfce"] with
  | some k =>
    let v := norm_txt ((dget? d k).getD "")
    if containsSub v "65" || containsSub v "nfce" || containsSub v "nfc" then false
    else if containsSub v "55" || containsSub v "nfe" then true
    else nfeChave d
  | none => nfeChave d

/-- `_is_nfe_questor` (views.py 108-133): `true` means the row is an NF-e
(model 55) and is skipped by the Questor indexer; the default is `false`. -/
def is_nfe_questor (d : List (String × String)) : Bool :=
  match first_key d ["especie", "especie_documento", "tipo", "tipo_documento"] with
  | some k =>
    let v := norm_txt ((dget? d k).getD "")
    if containsSub v "nfce" || containsSub v "nfc" || v = "65" then false
    else if containsSub v "nfe" || containsSub v "nfeletronica" || v = "55" then true
    else nfeModelo d
  | none => nfeModelo d

/-! ## SAT-record field extraction (views.py 68-95, 187-194)

SAT rows are stored as JSON objects whose values are nullable strings, hence
`List (String × Option String)` here. -/

/-- `str(d.get(k, ""))` for a nullable-string dict: absent ↦ `""`,
stored `None` ↦ `"None"`. -/
def pyGetStr (d : List (String × Option String)) (k : String) : String :=
  match dget? d k with
  | none => ""
  | some none => "None"
  | some (some s) => s

/-- `_extr_status_sat` (views.py 68-70). -/
def extr_status_sat (d : List (String × Option String)) : String :=
  match first_key d ["situacao", "status", "status_nfce", "situacao_nfce"] with
  | none => ""
  | some k => strLower (strTrim (pyGetStr d k))

/-- `_extr_valor_total_sat` (views.py 72-74). -/
def extr_valor_total_sat (d : List (String × Option String)) : PyDec :=
  match first_key d ["valornfe", "valor_total", "valortotal", "valor_total_nfe",
                     "valor_nfce"] with
  | none => parse_decimal none
  | some k => parse_decimal ((dget? d k).join)

/-- `_numero_documento_sat` (views.py 84-87). -/
def numero_documento_sat (d : List (String × Option String)) : String :=
  match first_key d ["cu_numerodocumento", "numerodocumento", "numero_documento",
                     "documento", "n_documento", "numnfe", "numero_nfce", "numero"] with
  | none => ""
  | some k =>
    match (dget? d k).join with
    | none => ""
    | some s => strTrim s

/-- Candidate lists for the SAT issue-date field (views.py 188-193). -/
def dateCandsSat : List String :=
  ["dataemissao", "data_emissao", "dt_emissao", "emissao", "emissao_data",
   "dataemissaonf", "data_emissao_nf", "data", "dtemissao",
   "data_entrada_saida", "data_entrada", "data_saida", "dt_entrada", "dt_saida",
   "dataentradasaida"]

/-- `_extr_data_emissao_dict` (views.py 187-194). -/
def extr_data_emissao_dict (d : List (String × Option String)) : Option CalDate :=
  match first_key d dateCandsSat with
  | none => none
  | some k => parse_date_any ((dget? d k).join)

/-- `d.get(_first_key(d, ["serie","serienfe","serie_nfce"]), "") or ""` as it
appears in views.py 597/676/724. -/
def serieSat (d : List (String × Option String)) : String :=
  match first_key d ["serie", "serienfe", "serie_nfce"] with
  | none => ""
  | some k => ((dget? d k).getD none).getD ""

/-! ## Monetary candidate lists (views.py 440-453) -/

def CANDS_VALOR_NOTA : List String :=
  ["valor_total_nota", "valor_total_notas", "valor_total", "valortotal",
   "vl_total", "valor", "valornfe", "valor_nfce", "valor_total_nfe"]

def CANDS_BC_ICMS : List String :=
  ["bc_icms", "base_icms", "base_de_calculo_icms", "basecalc_icms",
   "valor_bc_icms", "basecalculo_icms"]

def CANDS_VALOR_ICMS : List String :=
  ["valor_icms", "vl_icms", "vlr_icms", "valor_do_icms", "vlicms", "v_icms"]

/-- `_extr_decimal_by_keys` (views.py 451-453) over a normalised (string
valued) row. -/
def extr_decimal_by_keys (d : List (String × String)) (cands : List String) : PyDec :=
  match first_key d cands with
  | none => pzero
  | some k => parse_decimal (dget? d k)

/-- `_extr_decimal_by_keys` over a SAT (nullable-string valued) row. -/
def extr_decimal_by_keys_sat (d : List (String × Option String))
    (cands : List String) : PyDec :=
  match first_key d cands with
  | none => pzero
  | some k => parse_decimal ((dget? d k).join)

/-! ## Questor indexer (`_questor_map_por_documento`, views.py 455-528) -/

def candNumQ : List String :=
  ["cu_numerodocumento", "numerodocumento", "numero_documento", "n_documento",
   "documento", "numero"]

def candValQ : List String :=
  ["valor_contabil", "valorcontabil", "vl_contabil", "vlr_contabil",
   "valor_total", "valortotal", "vl_total", "valor"]

def candSerQ : List String := ["serie", "serie_documento", "serienfe", "serie_nfce"]

def candDtQ : List String :=
  ["dataemissao", "data_emissao", "dt_emissao", "emissao", "emissao_data",
   "data", "dtemissao",
   "data_entrada_saida", "data_entrada", "data_saida", "dt_entrada", "dt_saida",
   "dataentradasaida"]

/-- `{ _slug(h): i for i, h in enumerate(headers) }`. -/
def colsOf (headers : List (Option String)) : List (String × Nat) :=
  (headers.enum).foldl (fun m p => dinsert m (slugCell p.2) p.1) []

structure QMaps where
  docE : List (String × PyDec)
  docD : List (String × PyDec)
  pairE : List (String × PyDec)
  pairD : List (String × PyDec)
deriving DecidableEq, Repr

structure QMeta where
  lidasTotal : Nat
  lidasPeriodo : Nat
  colNum : String
  colVal : String
  colSer : String
  colData : String
deriving DecidableEq, Repr

structure QState where
  maps : QMaps
  lidasTotal : Nat
  lidasPeriodo : Nat
deriving DecidableEq, Repr

structure QCtx where
  headers : List (Option String)
  idxNum : Nat
  idxVal : Nat
  idxSer : Option Nat
  idxDt : Option Nat
  dtIni : Option CalDate
  dtFim : Option CalDate
deriving DecidableEq, Repr

/-- `if dt_ini and dt_fim: if dt_row is None or not (dt_ini <= dt_row <= dt_fim)`. -/
def rangeFilterFails (dtIni dtFim dtRow : Option CalDate) : Bool :=
  match dtIni, dtFim with
  | some i, some f =>
    match dtRow with
    | none => true
    | some d => !(dateLe i d && dateLe d f)
  | _, _ => false

/-- The row's date cell, as read by the indexer (views.py 487-489). -/
def rowDate (ctx : QCtx) (row : List (Option String)) : Option CalDate :=
  match ctx.idxDt with
  | some i => if i < row.length then parse_date_any (row.getD i none) else none
  | none => none

/-- The raw document number (views.py 500-502). -/
def rowRawNum (ctx : QCtx) (row : List (Option String)) : String :=
  if ctx.idxNum < row.length then (row.getD ctx.idxNum none).getD "" else ""

/-- The monetary value cell (views.py 504): out-of-range rows parse `"0"`. -/
def rowValQ (ctx : QCtx) (row : List (Option String)) : PyDec :=
  parse_decimal (if ctx.idxVal < row.length then row.getD ctx.idxVal none else some "0")

/-- The series string (views.py 505-508): `""` when the column is missing,
out of range, or the cell is `None`. -/
def rowSerie (ctx : QCtx) (row : List (Option String)) : String :=
  match ctx.idxSer with
  | some i => if i < row.length then (row.getD i none).getD "" else ""
  | none => ""

/-- One data row of the indexer loop (views.py 484-518). -/
def questorStep (ctx : QCtx) (st : QState) (row : List (Option String)) : QState :=
  let st1 := { st with lidasTotal := st.lidasTotal + 1 }
  if rangeFilterFails ctx.dtIni ctx.dtFim (rowDate ctx row) then st1
  else
    let dline := row_to_norm_dict ctx.headers row
    if is_nfe_questor dline then st1
    else
      let st2 := { st1 with lidasPeriodo := st1.lidasPeriodo + 1 }
      let rawNum := rowRawNum ctx row
      if strTrim rawNum = "" then st2
      else
        let valQ := rowValQ ctx row
        let serie := rowSerie ctx row
        let dk := norm_doc rawNum
        let pk := norm_pair rawNum serie
        if serie ≠ "" then
          { st2 with maps := { st2.maps with
              pairE := dadd st2.maps.pairE pk.1 valQ,
              pairD := dadd st2.maps.pairD pk.2 valQ } }
        else
          { st2 with maps := { st2.maps with
              docE := dadd st2.maps.docE dk.1 valQ,
              docD := dadd st2.maps.docD dk.2 valQ } }

/-- Resolve the indexer's context from the header row. -/
def mkQCtx (headers : List (Option String)) (kn kv : String)
    (kSer kDt : Option String) (dtIni dtFim : Option CalDate) : QCtx :=
  let cols := colsOf headers
  { headers := headers
    idxNum := (dget? cols kn).getD 0
    idxVal := (dget? cols kv).getD 0
    idxSer := kSer.map (fun k => (dget? cols k).getD 0)
    idxDt := kDt.map (fun k => (dget? cols k).getD 0)
    dtIni := dtIni, dtFim := dtFim }

/-- `_questor_map_por_documento` (views.py 455-528).  The sheet is given as
its header row plus data rows; the structured schema error is raised exactly
when the document-number or value column cannot be resolved. -/
def questor_map_por_documento (headers : List (Option String))
    (rows : List (List (Option String))) (dtIni dtFim : Option CalDate) :
    Except String (QMaps × QMeta) :=
  let cols := colsOf headers
  let kNum := first_key cols candNumQ
  let kVal := first_key cols candValQ
  let kSer := first_key cols candSerQ
  let kDt := first_key cols candDtQ
  match kNum, kVal with
  | some kn, some kv =>
    let ctx := mkQCtx headers kn kv kSer kDt dtIni dtFim
    let st := rows.foldl (questorStep ctx) ⟨⟨[], [], [], []⟩, 0, 0⟩
    .ok (st.maps, ⟨st.lidasTotal, st.lidasPeriodo, kn, kv, kSer.getD "", kDt.getD ""⟩)
  | _, _ =>
    .error "Planilha do Questor sem colunas NumeroDocumento/Valor Contábil (ou Valor Total)."

/-! ## Period aggregator, Questor side (`_questor_totais_periodo`, views.py 531-583) -/

structure Tot3 where
  valor : PyDec
  bc : PyDec
  icms : PyDec
deriving DecidableEq, Repr

structure TState where
  valor : List (String × PyDec)
  bc : List (String × PyDec)
  icms : List (String × PyDec)
deriving DecidableEq, Repr

/-- `str(num)` of a cell that may be `None` (views.py 560-561 has no
`is not None` guard, so a missing cell stringifies to `"None"`). -/
def pyCellStr : Option String → String
  | none => "None"
  | some s => s

/-- Date filter of the totals loop (views.py 549-554): with a range given, a
missing date column or short row skips the row. -/
def totDateFails (ctx : QCtx) (row : List (Option String)) : Bool :=
  match ctx.dtIni, ctx.dtFim with
  | some i, some f =>
    match ctx.idxDt with
    | none => true
    | some ix =>
      if ix ≥ row.length then true
      else
        match parse_date_any (row.getD ix none) with
        | none => true
        | some d => !(dateLe i d && dateLe d f)
  | _, _ => false

/-- Acceptance predicate of the Questor totals loop (views.py 548-562). -/
def totAccept (ctx : QCtx) (row : List (Option String)) : Bool :=
  !(totDateFails ctx row) &&
  !(is_nfe_questor (row_to_norm_dict ctx.headers row)) &&
  strTrim (if ctx.idxNum < row.length then pyCellStr (row.getD ctx.idxNum none) else "") ≠ ""

/-- Pair key and three quantities of an accepted totals row (views.py 564-573). -/
def totKey (ctx : QCtx) (row : List (Option String)) : String :=
  let num := if ctx.idxNum < row.length then pyCellStr (row.getD ctx.idxNum none) else ""
  (norm_pair num (rowSerie ctx row)).1

def totTriple (ctx : QCtx) (row : List (Option String)) : Tot3 :=
  let dline := row_to_norm_dict ctx.headers row
  ⟨extr_decimal_by_keys dline CANDS_VALOR_NOTA,
   extr_decimal_by_keys dline CANDS_BC_ICMS,
   extr_decimal_by_keys dline CANDS_VALOR_ICMS⟩

/-- One row of the Questor totals loop (views.py 548-577). -/
def totStep (ctx : QCtx) (st : TState) (row : List (Option String)) : TState :=
  if totAccept ctx row then
    let k := totKey ctx row
    let t := totTriple ctx row
    ⟨dadd st.valor k t.valor, dadd st.bc k t.bc, dadd st.icms k t.icms⟩
  else st

/-- `_questor_totais_periodo` (views.py 531-583). -/
def questor_totais_periodo (headers : List (Option String))
    (rows : List (List (Option String))) (dtIni dtFim : Option CalDate) : Tot3 :=
  let cols := colsOf headers
  match first_key cols candNumQ with
  | none => ⟨pzero, pzero, pzero⟩
  | some kn =>
    let kSer := first_key cols candSerQ
    let kDt := first_key cols candDtQ
    let ctx := mkQCtx headers kn kn kSer kDt dtIni dtFim
    let st := rows.foldl (totStep ctx) ⟨[], [], []⟩
    ⟨dsum st.valor, dsum st.bc, dsum st.icms⟩

/-! ## Period aggregator, SAT side (`_sat_totais_periodo`, views.py 585-606) -/

/-- A SAT row's JSON payload. -/
abbrev SatData := List (String × Option String)

/-- Acceptance predicate of the SAT totals loop (views.py 590-596). -/
def satTotAccept (dtIni dtFim : Option CalDate) (d : SatData) : Bool :=
  !(rangeFilterFails dtIni dtFim (extr_data_emissao_dict d)) &&
  numero_documento_sat d ≠ ""

/-- The dedup pair key of a SAT row (views.py 597-598). -/
def satKey (d : SatData) : String :=
  (norm_pair (numero_documento_sat d) (serieSat d)).1

def satTriple (d : SatData) : Tot3 :=
  ⟨extr_decimal_by_keys_sat d CANDS_VALOR_NOTA,
   extr_decimal_by_keys_sat d CANDS_BC_ICMS,
   extr_decimal_by_keys_sat d CANDS_VALOR_ICMS⟩

/-- One row of the SAT totals loop, carrying the seen-keys set (views.py
588-605): an already-seen pair key is skipped entirely. -/
def satTotStep (dtIni dtFim : Option CalDate) (st : Tot3 × List String) (d : SatData) :
    Tot3 × List String :=
  if satTotAccept dtIni dtFim d then
    let k := satKey d
    if k ∈ st.2 then st
    else
      let t := satTriple d
      (⟨st.1.valor.add t.valor, st.1.bc.add t.bc, st.1.icms.add t.icms⟩, k :: st.2)
  else st

/-- `_sat_totais_periodo` (views.py 585-606). -/
def sat_totais_periodo (recs : List SatData) (dtIni dtFim : Option CalDate) : Tot3 :=
  (recs.foldl (satTotStep dtIni dtFim) (⟨pzero, pzero, pzero⟩, [])).1

/-! ## Reconciler (`comparar_questor`, views.py 609-780)

The request-level validations (company id, file extension, inverted period)
and the authorized-absent second loop are upstream/downstream of the verified
properties and are not part of this model; the model covers the schema-error
abort, the empty-maps abort, and the cancelled-candidates loop. -/

structure SatRow where
  data : SatData
  sheet : String
  row : Nat
deriving DecidableEq, Repr

structure Diverg where
  documento : String
  serie : String
  valorQuestor : PyDec
  valorSat : PyDec
deriving DecidableEq, Repr

structure CmpPayload where
  linhasLidas : Nat
  satTotalPeriodo : Nat
  satConsiderados : Nat
  candidatos : Nat
  pareadas : Nat
  naoEncontradas : Nat
  divergencias : List Diverg
deriving DecidableEq, Repr

inductive CompareOutcome
  | schemaError (msg : String)
  | emptyWarning
  | result (p : CmpPayload)
deriving DecidableEq, Repr

/-- Python `x or y` on looked-up `Decimal` sums: a present-but-zero value is
falsy and falls through to `y` (views.py 690-693). -/
def pyOrQ (a b : Option PyDec) : Option PyDec :=
  match a with
  | some v => if v.isZero then b else some v
  | none => b

/-- The matched-sum retrieval chain
`q_pair_raw.get(...) or q_pair_dig.get(...) or q_doc_raw.get(...) or q_doc_dig.get(...)`. -/
def valQLookup (m : QMaps) (kpr kpd dr dd : String) : Option PyDec :=
  pyOrQ (dget? m.pairE kpr)
    (pyOrQ (dget? m.pairD kpd)
      (pyOrQ (dget? m.docE dr) (dget? m.docD dd)))

/-- Membership against the four key sets in priority order (views.py 679-682). -/
def presentInQuestor (m : QMaps) (kpr kpd dr dd : String) : Bool :=
  (kpr ≠ "" && (dget? m.pairE kpr).isSome) ||
  (kpd ≠ "" && (dget? m.pairD kpd).isSome) ||
  (dr ≠ "" && (dget? m.docE dr).isSome) ||
  (dd ≠ "" && (dget? m.docD dd).isSome)

/-- One SAT record of the cancelled-candidates loop (views.py 666-710). -/
def cancelStep (dtIni dtFim : Option CalDate) (m : QMaps) (st : CmpPayload)
    (reg : SatRow) : CmpPayload :=
  let d := reg.data
  if rangeFilterFails dtIni dtFim (extr_data_emissao_dict d) then st
  else
    let st := { st with satTotalPeriodo := st.satTotalPeriodo + 1 }
    let num := numero_documento_sat d
    if num = "" then st
    else
      let serie := serieSat d
      let dk := norm_doc num
      let pk := norm_pair num serie
      if !(presentInQuestor m pk.1 pk.2 dk.1 dk.2) then st
      else
        let st := { st with satConsiderados := st.satConsiderados + 1 }
        if !(is_cancelado (extr_status_sat d)) then st
        else
          let st := { st with candidatos := st.candidatos + 1 }
          match valQLookup m pk.1 pk.2 dk.1 dk.2 with
          | none => { st with naoEncontradas := st.naoEncontradas + 1 }
          | some v =>
            let st := { st with pareadas := st.pareadas + 1 }
            if !(v.isZero) then
              { st with divergencias :=
                  st.divergencias ++ [⟨num, serie, v, extr_valor_total_sat d⟩] }
            else st

/-- Core of `comparar_questor` (views.py 609-780): schema-error abort,
empty-maps warning abort, else the cancelled-candidates loop's payload. -/
def comparar_questor (headers : List (Option String))
    (rows : List (List (Option String))) (satRecs : List SatRow)
    (dtIni dtFim : Option CalDate) : CompareOutcome :=
  match questor_map_por_documento headers rows dtIni dtFim with
  | .error e => .schemaError e
  | .ok (m, meta) =>
    if m.pairE = [] ∧ m.pairD = [] ∧ m.docE = [] ∧ m.docD = [] then
      .emptyWarning
    else
      .result (satRecs.foldl (cancelStep dtIni dtFim m)
        ⟨meta.lidasPeriodo, 0, 0, 0, 0, 0, []⟩)

/-! ## Upsert importer (`sat_importar`, views.py 260-387)

The workbook is a list of sheets `(name, rows)`; the first row of a sheet is
its header row (a sheet with no rows is skipped).  `bulk_create` /
`bulk_update` batches commit everything by the end of the transaction, so the
model applies creations and updates to the store directly; conflict-ignoring
inserts never fire because the preloaded key index already contains every
persisted key. -/

structure SatRec where
  empresa : Nat
  competencia : Option CalDate
  sheet : String
  row : Nat
  data : List (String × Option String)
  descricao : Option String
  ncm : Option String
  cfop : Option String
  cest : Option String
  cst_csosn : Option String
  data_emissao : Option CalDate
deriving DecidableEq, Repr

/-- The upsert key `(empresa, competencia, sheet, row)`. -/
abbrev RKey := Nat × Option CalDate × String × Nat

def keyOfRec (r : SatRec) : RKey := (r.empresa, r.competencia, r.sheet, r.row)

structure ImpState where
  store : List SatRec
  emap : List (RKey × Nat)
  criados : Nat
  atualizados : Nat
  ignorados : Nat
deriving DecidableEq, Repr

/-- The preload of `exist_map` (views.py 297-300): every persisted record of
the company, keyed by `(empresa, competencia, sheet, row)`; a later record
with the same key overwrites the entry. -/
def loadMapAux (i : Nat) : List SatRec → List (RKey × Nat) → List (RKey × Nat)
  | [], m => m
  | r :: rest, m => loadMapAux (i + 1) rest (dinsert m (keyOfRec r) i)

def loadMap (s : List SatRec) : List (RKey × Nat) := loadMapAux 0 s []

/-- The normalised `data` dict of one imported row (views.py 313-318):
`None` for blank cells, the stringified value otherwise. -/
def rowData (headerKeys : List String) (row : List (Option String)) :
    List (String × Option String) :=
  (headerKeys.enum).foldl
    (fun m p =>
      let val := row.getD p.1 none
      dinsert m p.2 (match val with | none | some "" => none | some s => some s))
    []

/-- A row is empty when every header-covered cell is `None` or `""`
(views.py 313-321). -/
def rowEmpty (headerKeys : List String) (row : List (Option String)) : Bool :=
  (headerKeys.enum).all (fun p =>
    match row.getD p.1 none with
    | none | some "" => true
    | some _ => false)

/-- `data.get("descricao") or data.get("descricao_produto") or ...`
(views.py 324): stored values are never empty strings, so `or` is
`Option.orElse`. -/
def pyOrStr (a b : Option String) : Option String :=
  match a with
  | some s => if s ≠ "" then some s else b
  | none => b

def descOf (data : List (String × Option String)) : Option String :=
  pyOrStr ((dget? data "descricao").join)
    (pyOrStr ((dget? data "descricao_produto").join)
      ((dget? data "descricao_mercadoria").join))

def cstOf (data : List (String × Option String)) : Option String :=
  pyOrStr ((dget? data "cst_csosn").join)
    (pyOrStr ((dget? data "cst").join) ((dget? data "csosn").join))

/-- The derived competency of one row (views.py 326-327): the issue-date's
month, else the caller-supplied fallback. -/
def rowCompetencia (compParam : Option CalDate)
    (data : List (String × Option String)) : Option CalDate :=
  match competencia_from_date (extr_data_emissao_dict data) with
  | some c => some c
  | none => compParam

/-- Record construction for the insert branch (views.py 344-356). -/
def mkSatRec (emp : Nat) (sheetName : String) (r : Nat)
    (data : List (String × Option String)) (dtEm competencia : Option CalDate) : SatRec :=
  { empresa := emp, competencia := competencia, sheet := sheetName, row := r
    data := data, descricao := descOf data
    ncm := (dget? data "ncm").join, cfop := (dget? data "cfop").join
    cest := (dget? data "cest").join, cst_csosn := cstOf data
    data_emissao := dtEm }

/-- Field mutation for the update branch (views.py 332-340); the key fields
`empresa`, `sheet`, `row` are untouched. -/
def updateRec (old : SatRec) (data : List (String × Option String))
    (dtEm competencia : Option CalDate) : SatRec :=
  { old with
    data := data, descricao := descOf data
    ncm := (dget? data "ncm").join, cfop := (dget? data "cfop").join
    cest := (dget? data "cest").join, cst_csosn := cstOf data
    data_emissao := dtEm, competencia := competencia }

/-- One data row of the import loop (views.py 312-359). -/
def importRow (emp : Nat) (compParam : Option CalDate) (sheetName : String)
    (headerKeys : List String) (r : Nat) (row : List (Option String))
    (st : ImpState) : ImpState :=
  if rowEmpty headerKeys row then
    { st with ignorados := st.ignorados + 1 }
  else
    let data := rowData headerKeys row
    let dtEm := extr_data_emissao_dict data
    let competencia := rowCompetencia compParam data
    let k : RKey := (emp, competencia, sheetName, r)
    match dget? st.emap k with
    | some i =>
      { st with
        store := st.store.set i (updateRec (st.store.getD i (mkSatRec emp sheetName r data dtEm competencia)) data dtEm competencia)
        atualizados := st.atualizados + 1 }
    | none =>
      { st with
        store := st.store ++ [mkSatRec emp sheetName r data dtEm competencia]
        emap := dinsert st.emap k st.store.length
        criados := st.criados + 1 }

/-- The data rows of one sheet, numbered from 2 (views.py 312). -/
def importRows (emp : Nat) (compParam : Option CalDate) (sheetName : String)
    (headerKeys : List String) (r : Nat) (rows : List (List (Option String)))
    (st : ImpState) : ImpState :=
  match rows with
  | [] => st
  | row :: rest =>
    importRows emp compParam sheetName headerKeys (r + 1) rest
      (importRow emp compParam sheetName headerKeys r row st)

/-- A workbook: sheets in order, each a name plus its rows (header first). -/
abbrev Workbook := List (String × List (List (Option String)))

/-- The sheet loop (views.py 302-310): a sheet without a header row is
skipped; headers are slugified by `_slugify_field`. -/
def importSheets (emp : Nat) (compParam : Option CalDate) (wb : Workbook)
    (st : ImpState) : ImpState :=
  match wb with
  | [] => st
  | (name, sheetRows) :: rest =>
    match sheetRows with
    | [] => importSheets emp compParam rest st
    | headerRow :: dataRows =>
      let headerKeys := headerRow.map slugify_field
      importSheets emp compParam rest
        (importRows emp compParam name headerKeys 2 dataRows st)

/-- Core of `sat_importar` (views.py 260-387): preload the existing-key
index, then upsert every sheet. -/
def sat_importar (emp : Nat) (compParam : Option CalDate) (wb : Workbook)
    (s0 : List SatRec) : ImpState :=
  importSheets emp compParam wb ⟨s0, loadMap s0, 0, 0, 0⟩

/-! ## Specification-side definitions

These definitions follow the specification's words (not the source); the
theorems below compare the source-derived functions against them. -/

/-- First non-zero value among a priority-ordered list of optional sums. -/
def firstNonzeroOpt : List (Option PyDec) → Option PyDec
  | [] => none
  | a :: rest =>
    match a with
    | some v => if v.isZero then firstNonzeroOpt rest else some v
    | none => firstNonzeroOpt rest

/-- `('.' DDD)*`: dot-separated three-digit thousands groups. -/
def dotGroups : List Char → Bool
  | [] => true
  | s :: a :: b :: c :: rest =>
    s = '.' && isDigitCh a && isDigitCh b && isDigitCh c && dotGroups rest
  | _ => false

/-- Integer part of the `1.234,56` convention: plain digits, or 1-3 digits
followed by dot-separated three-digit groups. -/
def intPartA (l : List Char) : Bool :=
  let g := l.takeWhile isDigitCh
  let rest := l.dropWhile isDigitCh
  if rest = [] then decide (1 ≤ g.length)
  else decide (1 ≤ g.length) && decide (g.length ≤ 3) && dotGroups rest

/-- The spec's `1.234,56` convention: exactly one comma as the decimal
separator, dots as thousands separators. -/
def convA (s : String) : Bool :=
  let l := s.data
  l.count ',' = 1 &&
    (intPartA (l.takeWhile (fun c => c ≠ ',')) &&
     (let frac := (l.dropWhile (fun c => c ≠ ',')).tail
      decide (frac ≠ []) && frac.all isDigitCh))

/-- The mathematically intended amount of a convention-A string. -/
def intendedA (s : String) : ℚ :=
  let l := s.data
  let intp := (l.takeWhile (fun c => c ≠ ',')).filter isDigitCh
  let frac := (l.dropWhile (fun c => c ≠ ',')).tail
  (digitsVal intp : ℚ) + (digitsVal frac : ℚ) / 10 ^ frac.length

/-- The spec's `1234.56` convention: digits with an optional fractional part
after a single dot. -/
def convB (s : String) : Bool :=
  let l := s.data
  let intp := l.takeWhile isDigitCh
  let rest := l.dropWhile isDigitCh
  decide (intp ≠ []) &&
    (decide (rest = []) ||
     (decide (rest.head? = some '.') && decide (rest.tail ≠ []) &&
      (rest.tail).all isDigitCh))

/-- The mathematically intended amount of a convention-B string. -/
def intendedB (s : String) : ℚ :=
  let l := s.data
  let intp := l.takeWhile isDigitCh
  let frac := (l.dropWhile isDigitCh).tail
  (digitsVal intp : ℚ) + (digitsVal frac : ℚ) / 10 ^ frac.length

/-- Component-wise addition of monetary triples. -/
def tot3Add (a b : Tot3) : Tot3 :=
  ⟨a.valor.add b.valor, a.bc.add b.bc, a.icms.add b.icms⟩

def tot3Zero : Tot3 := ⟨pzero, pzero, pzero⟩

/-- Sum of monetary triples. -/
def tot3Sum (l : List Tot3) : Tot3 := l.foldl tot3Add tot3Zero

/-- The context the Questor totals loop resolves from the header row; its
value column plays no role in the totals loop, so the document column is
reused as a placeholder. -/
def totCtx (headers : List (Option String)) (kn : String)
    (dtIni dtFim : Option CalDate) : QCtx :=
  mkQCtx headers kn kn (first_key (colsOf headers) candSerQ)
    (first_key (colsOf headers) candDtQ) dtIni dtFim

/-- Keep only the first occurrence of each key: later rows whose key was
already seen are dropped entirely. -/
def dedupFirstByKey {α : Type} (key : α → String) : List α → List α
  | [] => []
  | x :: xs =>
    x :: dedupFirstByKey key (xs.filter (fun y => key y ≠ key x))
termination_by l => l.length
decreasing_by
  simpa using Nat.lt_succ_of_le (List.length_filter_le _ xs)

/-- First-occurrence filter of the SAT totals loop relative to an initial
seen-key set: an accepted row is kept only when its pair key is new. -/
def satKeepAux (dtIni dtFim : Option CalDate) (seen : List String) :
    List SatData → List SatData
  | [] => []
  | d :: rest =>
    if satTotAccept dtIni dtFim d then
      if satKey d ∈ seen then satKeepAux dtIni dtFim seen rest
      else d :: satKeepAux dtIni dtFim (satKey d :: seen) rest
    else satKeepAux dtIni dtFim seen rest

/-- The keys of the non-empty data rows of one sheet, numbered from `r`. -/
def rowsKeys (emp : Nat) (compParam : Option CalDate) (sheetName : String)
    (headerKeys : List String) : Nat → List (List (Option String)) → List RKey
  | _, [] => []
  | r, row :: rest =>
    if rowEmpty headerKeys row then
      rowsKeys emp compParam sheetName headerKeys (r + 1) rest
    else
      (emp, rowCompetencia compParam (rowData headerKeys row), sheetName, r) ::
        rowsKeys emp compParam sheetName headerKeys (r + 1) rest

/-- The upsert keys of every non-empty row of a workbook. -/
def wbKeys (emp : Nat) (compParam : Option CalDate) : Workbook → List RKey
  | [] => []
  | (name, sheetRows) :: rest =>
    (match sheetRows with
     | [] => []
     | headerRow :: dataRows =>
       rowsKeys emp compParam name (headerRow.map slugify_field) 2 dataRows)
    ++ wbKeys emp compParam rest

/-- The existing-key index is sound: each entry points at a record of the
store carrying exactly that key. -/
def EmapGood (st : ImpState) : Prop :=
  ∀ k i, dget? st.emap k = some i →
    ∃ rec, st.store.get? i = some rec ∧ keyOfRec rec = k

/-- Some record of the store carries the key. -/
def StoreHasKey (s : List SatRec) (k : RKey) : Prop :=
  ∃ i rec, s.get? i = some rec ∧ keyOfRec rec = k

/-! ## Concrete inputs for the counterexamples and witnesses -/

/-- Questor sheet whose pair-exact sum for `123|1` accumulates to zero while
the doc-exact table carries `150` for the same document number. -/
def zeroPairHeaders : List (Option String) :=
  [some "NumeroDocumento", some "Serie", some "Valor"]

def zeroPairRows : List (List (Option String)) :=
  [[some "123", some "1", some "150"],
   [some "123", some "1", some "-150"],
   [some "123", none, some "150"]]

/-- One cancelled SAT record with document `123`, series `1`. -/
def cancelledSat : List SatRow :=
  [⟨[("situacao", some "CANCELADA"), ("numerodocumento", some "123"),
     ("serie", some "1")], "S", 2⟩]

/-- Questor sheet with a receipt-marked (`NFC-e`) row. -/
def receiptHeaders : List (Option String) :=
  [some "Especie", some "NumeroDocumento", some "Valor"]

def receiptRows : List (List (Option String)) := [[some "NFC-e", some "7", some "10"]]

/-- A persisted record with a null competency period. -/
def nullCompRec : SatRec :=
  { empresa := 1, competencia := none, sheet := "Plan1", row := 2, data := []
    descricao := none, ncm := none, cfop := none, cest := none
    cst_csosn := none, data_emissao := none }

/-- A one-row workbook whose single data row carries no parseable issue
date, matching `nullCompRec`'s sheet and row number. -/
def nullCompWb : Workbook := [("Plan1", [[some "Produto"], [some "X"]])]

/-! ## Theorems -/

theorem PyDec.ext2 {a b : PyDec} (h1 : a.num = b.num) (h2 : a.den = b.den) :
    a = b := by
  cases a; cases b; cases h1; cases h2; rfl

theorem PyDec.add_comm (a b : PyDec) : a.add b = b.add a := by
  apply PyDec.ext2 <;> simp [PyDec.add] <;> ring

theorem PyDec.add_assoc (a b c : PyDec) :
    (a.add b).add c = a.add (b.add c) := by
  apply PyDec.ext2 <;> simp [PyDec.add] <;> ring

theorem PyDec.zero_add (a : PyDec) : pzero.add a = a := by
  apply PyDec.ext2 <;> simp [PyDec.add, pzero]

theorem PyDec.add_zero (a : PyDec) : a.add pzero = a := by
  apply PyDec.ext2 <;> simp [PyDec.add, pzero]

theorem dget?_nil {κ α : Type} [DecidableEq κ] (k : κ) :
    dget? ([] : List (κ × α)) k = none := rfl

theorem dget?_cons {κ α : Type} [DecidableEq κ]
    (p : κ × α) (m : List (κ × α)) (k : κ) :
    dget? (p :: m) k = if p.1 = k then some p.2 else dget? m k := by
  by_cases h : p.1 = k <;> simp [dget?, List.find?, h]

theorem dget?_dinsert {κ α : Type} [DecidableEq κ]
    (m : List (κ × α)) (k k' : κ) (v : α) :
    dget? (dinsert m k v) k' = if k' = k then some v else dget? m k' := by
  induction m with
  | nil =>
    by_cases h : k' = k
    · subst h; simp [dinsert, dget?, List.find?]
    · have h2 : ¬ (k = k') := fun e => h e.symm
      simp [dinsert, dget?, List.find?, h2, h]
  | cons p rest ih =>
    by_cases hp : p.1 = k
    · subst hp
      by_cases h : k' = p.1
      · subst h; simp [dinsert, dget?_cons]
      · have h2 : ¬ (p.1 = k') := fun e => h e.symm
        simp [dinsert, dget?_cons, h2, h]
    · by_cases h : p.1 = k'
      · subst h
        simp [dinsert, hp, dget?_cons]
      · simp [dinsert, hp, dget?_cons, h, ih]

/-- A left fold of decimal additions pulls out its accumulator. -/
theorem pdFoldl_acc (l : List PyDec) :
    ∀ acc : PyDec, l.foldl PyDec.add acc = acc.add (l.foldl PyDec.add pzero) := by
  induction l with
  | nil => intro acc; simp [PyDec.add_zero]
  | cons x rest ih =>
    intro acc
    simp only [List.foldl_cons]
    rw [ih (acc.add x), ih (pzero.add x), PyDec.zero_add, PyDec.add_assoc]

theorem dsum_nil : dsum [] = pzero := rfl

theorem dsum_cons (p : String × PyDec) (m : List (String × PyDec)) :
    dsum (p :: m) = p.2.add (dsum m) := by
  simp only [dsum, List.map_cons, List.foldl_cons]
  rw [pdFoldl_acc, PyDec.zero_add]

theorem dsum_dadd (m : List (String × PyDec)) (k : String) (v : PyDec) :
    dsum (dadd m k v) = (dsum m).add v := by
  induction m with
  | nil =>
    show dsum [(k, pzero.add v)] = (dsum []).add v
    simp [dsum_cons, dsum_nil, PyDec.add_zero, PyDec.zero_add]
  | cons p rest ih =>
    by_cases hp : p.1 = k
    · subst hp
      have h1 : dget? (p :: rest) p.1 = some p.2 := by simp [dget?_cons]
      have h2 : dadd (p :: rest) p.1 v = (p.1, p.2.add v) :: rest := by
        simp [dadd, h1, dinsert]
      rw [h2, dsum_cons]
      conv_rhs => rw [dsum_cons]
      rw [PyDec.add_assoc, PyDec.add_assoc, PyDec.add_comm v (dsum rest)]
    · have h1 : dget? (p :: rest) k = dget? rest k := by
        simp [dget?_cons, hp]
      have h2 : dadd (p :: rest) k v = p :: dadd rest k v := by
        simp [dadd, h1, dinsert, hp]
      rw [h2, dsum_cons, ih]
      conv_rhs => rw [dsum_cons]
      rw [PyDec.add_assoc]

/-- Claim C9 (code bug): the four claimed parses `31/12/24`, `2024-12-31`,
`31/12/2024 10:00:00` and `45657` indeed all yield 2024-12-31, but
`31.12.2024` yields no date at all: the fractional-seconds handling truncates
the input at its first dot before the format list (which declares
`%d.%m.%Y`) is ever tried, so the dotted date parses as `"31"` and fails. -/
theorem parse_date_any_dotted_date_bug :
    parse_date_any (some "31/12/24") = some ⟨2024, 12, 31⟩ ∧
    parse_date_any (some "2024-12-31") = some ⟨2024, 12, 31⟩ ∧
    parse_date_any (some "31/12/2024 10:00:00") = some ⟨2024, 12, 31⟩ ∧
    parse_date_any (some "45657") = some ⟨2024, 12, 31⟩ ∧
    parse_date_any (some "31.12.2024") = none :=
  ⟨rfl, rfl, rfl, rfl, rfl⟩

/-- Claim C10: when the indexer succeeds but all four lookup tables are
empty, the comparison aborts with the warning outcome, which carries no
result payload at all. -/
theorem empty_maps_abort (headers : List (Option String))
    (rows : List (List (Option String))) (satRecs : List SatRow)
    (dtIni dtFim : Option CalDate) (m : QMaps) (meta : QMeta)
    (h : questor_map_por_documento headers rows dtIni dtFim = .ok (m, meta))
    (he : m.pairE = [] ∧ m.pairD = [] ∧ m.docE = [] ∧ m.docD = []) :
    comparar_questor headers rows satRecs dtIni dtFim = .emptyWarning := by
  unfold comparar_questor
  rw [h]
  simp [he.1, he.2.1, he.2.2.1, he.2.2.2]

/-- Witness for C10: a sheet with resolvable columns but no data rows
produces four empty tables and the warning abort. -/
theorem empty_maps_abort_witness :
    comparar_questor [some "Documento", some "Valor"] [] [] none none =
      .emptyWarning :=
  empty_maps_abort [some "Documento", some "Valor"] [] [] none none
    ⟨[], [], [], []⟩ ⟨0, 0, "documento", "valor", "", ""⟩ rfl ⟨rfl, rfl, rfl, rfl⟩

/-- Claim C7: the indexer returns the structured schema error exactly when
the document-number or the monetary-value column cannot be resolved (series
and date columns never cause the error), and on that error the comparison
surfaces only the schema-error outcome, which carries no partial result. -/
theorem schema_error_iff_unresolved_columns :
    (∀ (headers : List (Option String)) (rows : List (List (Option String)))
       (dtIni dtFim : Option CalDate),
       (∃ e, questor_map_por_documento headers rows dtIni dtFim = .error e) ↔
       (first_key (colsOf headers) candNumQ = none ∨
        first_key (colsOf headers) candValQ = none)) ∧
    (∀ (headers : List (Option String)) (rows : List (List (Option String)))
       (satRecs : List SatRow) (dtIni dtFim : Option CalDate) (e : String),
       questor_map_por_documento headers rows dtIni dtFim = .error e →
       comparar_questor headers rows satRecs dtIni dtFim = .schemaError e) := by
  constructor
  · intro headers rows dtIni dtFim
    cases hn : first_key (colsOf headers) candNumQ with
    | none => simp [questor_map_por_documento, hn]
    | some kn =>
      cases hv : first_key (colsOf headers) candValQ with
      | none => simp [questor_map_por_documento, hn, hv]
      | some kv => simp [questor_map_por_documento, hn, hv]
  · intro headers rows satRecs dtIni dtFim e h
    unfold comparar_questor
    rw [h]

/-- Witness for C7: a sheet having a document-number column but no value
column aborts with the schema error, surfacing no result. -/
theorem schema_error_witness :
    comparar_questor [some "NumeroDocumento"] [] [] none none =
      .schemaError "Planilha do Questor sem colunas NumeroDocumento/Valor Contábil (ou Valor Total)." :=
  schema_error_iff_unresolved_columns.2 [some "NumeroDocumento"] [] [] none none _ rfl

/-- A prefix test for a longer pattern implies one for its prefix. -/
theorem isPrefCh_append (pat ext l : List Char) :
    isPrefCh (pat ++ ext) l = true → isPrefCh pat l = true := by
  induction pat generalizing l with
  | nil => simp [isPrefCh]
  | cons c cs ih =>
    cases l with
    | nil => simp [isPrefCh]
    | cons b bs =>
      simp only [List.cons_append, isPrefCh, Bool.and_eq_true]
      rintro ⟨h1, h2⟩
      exact ⟨h1, ih bs h2⟩

/-- Containment of a longer pattern implies containment of its prefix. -/
theorem isSubCh_append (pat ext l : List Char) :
    isSubCh (pat ++ ext) l = true → isSubCh pat l = true := by
  induction l with
  | nil =>
    cases pat with
    | nil => simp [isSubCh, List.isEmpty]
    | cons c cs => simp [isSubCh, List.isEmpty]
  | cons c rest ih =>
    simp only [isSubCh, Bool.or_eq_true]
    rintro (h | h)
    · exact Or.inl (isPrefCh_append pat ext _ h)
    · exact Or.inr (ih h)

/-- A string containing `nfce` contains `nfc`. -/
theorem containsSub_nfce_nfc (s : String) :
    containsSub s "nfce" = true → containsSub s "nfc" = true := by
  intro h
  unfold containsSub at h ⊢
  exact isSubCh_append "nfc".data "e".data s.data h

/-- A string containing `nfeletronica` contains `nfe`. -/
theorem containsSub_nfeletronica_nfe (s : String) :
    containsSub s "nfeletronica" = true → containsSub s "nfe" = true := by
  intro h
  unfold containsSub at h ⊢
  exact isSubCh_append "nfe".data "letronica".data s.data h

/-- Folding one more table into the priority chain. -/
theorem pyOrQ_fnz_chain (x : Option PyDec) (rest : List (Option PyDec))
    (fb : Option PyDec) :
    pyOrQ x (match firstNonzeroOpt rest with | some v => some v | none => fb) =
      (match firstNonzeroOpt (x :: rest) with | some v => some v | none => fb) := by
  rcases x with _ | vx
  · simp [pyOrQ, firstNonzeroOpt]
  · cases h : vx.isZero <;> simp [pyOrQ, firstNonzeroOpt, h]

/-- Appending the fallback table itself as a last chain element is a no-op. -/
theorem fnz_ext_last (l : List (Option PyDec)) (d : Option PyDec) :
    (match firstNonzeroOpt (l ++ [d]) with | some v => some v | none => d) =
      (match firstNonzeroOpt l with | some v => some v | none => d) := by
  induction l with
  | nil =>
    rcases d with _ | vd
    · rfl
    · cases h : vd.isZero <;> simp [firstNonzeroOpt, h]
  | cons a rest ih =>
    rcases a with _ | va
    · simpa [firstNonzeroOpt] using ih
    · cases h : va.isZero <;> simp [firstNonzeroOpt, h, ih]

/-- Claim C1 (corrected): the matched-sum retrieval consults the four tables
in the priority order pair-exact, pair-digits, doc-exact, doc-digits, but a
table's entry is used only when its accumulated sum is non-zero — a
present-but-zero sum falls through exactly like a missing key.  The value
used is the first non-zero sum in priority order; when no table holds a
non-zero sum the result is the doc-digits entry (possibly a zero, counted as
paired with no divergence) or, if that too is missing, no value (counted as
not found). -/
theorem matched_sum_priority_skips_zero (m : QMaps) (kpr kpd dr dd : String) :
    valQLookup m kpr kpd dr dd =
      (match firstNonzeroOpt [dget? m.pairE kpr, dget? m.pairD kpd,
                              dget? m.docE dr, dget? m.docD dd] with
       | some v => some v
       | none => dget? m.docD dd) := by
  unfold valQLookup
  generalize dget? m.pairE kpr = a
  generalize dget? m.pairD kpd = b
  generalize dget? m.docE dr = c
  generalize dget? m.docD dd = d
  have h0 : pyOrQ c d =
      (match firstNonzeroOpt [c] with | some v => some v | none => d) := by
    have := pyOrQ_fnz_chain c [] d
    simpa [firstNonzeroOpt] using this
  rw [h0, pyOrQ_fnz_chain b [c] d, pyOrQ_fnz_chain a [b, c] d]
  have := fnz_ext_last [a, b, c] d
  simpa using this.symm

/-- Counterexample for C1 as frozen: in this run the pair-exact table
contains the record's pair key `123|1` with accumulated sum 0, so the claim
demands that the zero be the value used (and hence no divergence); the code
instead falls through to the doc-exact sum 150 and emits a divergence whose
matched value is 150. -/
theorem matched_sum_zero_counterexample :
    (match questor_map_por_documento zeroPairHeaders zeroPairRows none none with
     | .ok (m, _) => some (dget? m.pairE "123|1", dget? m.docE "123")
     | .error _ => none) = some (some ⟨0, 1⟩, some ⟨150, 1⟩) ∧
    comparar_questor zeroPairHeaders zeroPairRows cancelledSat none none =
      .result ⟨3, 1, 1, 1, 1, 0, [⟨"123", "1", ⟨150, 1⟩, ⟨0, 1⟩⟩]⟩ := by
  exact ⟨by decide, by decide⟩

/-- Claim C2 (corrected): the classifier's polarity is the reverse of the
frozen claim — receipt-marked rows (`nfce`/`nfc`/code 65) classify as
comparable and are included in the lookup tables, invoice-marked rows
(`nfe`/code 55) are excluded, and a row on which nothing resolves defaults
to included.  Clause by clause over the three cascaded branches of
`_is_nfe_questor` (views.py 108-133):
(i) a species value containing the receipt marker is included;
(ii) a species value containing the invoice marker (and no receipt marker,
nor being the bare receipt code) is excluded;
(iii) a species value matching no marker and neither bare code defers to the
model-field branch;
(iv) an unresolved species field defers to the model-field branch;
(v) a model value containing `65`, `nfce` or `nfc` is included;
(vi) a model value containing `55` (and none of the receipt markers) is
excluded;
(vii) an unresolved model field defers to the access-key branch;
(viii) an access key with at least 22 digits whose digits at offset 20-22
are exactly `55` is excluded;
(ix) such a key whose digits at offset 20-22 are exactly `65` is included;
(x) a row resolving no species, model or access-key field is included;
(xi) rows classified as excluded contribute nothing to any lookup table. -/
theorem classifier_polarity (d : List (String × String)) (k km kc : String)
    (ctx : QCtx) (st : QState) (row : List (Option String)) :
    (first_key d ["especie", "especie_documento", "tipo", "tipo_documento"] = some k →
      containsSub (norm_txt ((dget? d k).getD "")) "nfce" = true →
      is_nfe_questor d = false) ∧
    (first_key d ["especie", "especie_documento", "tipo", "tipo_documento"] = some k →
      containsSub (norm_txt ((dget? d k).getD "")) "nfe" = true →
      containsSub (norm_txt ((dget? d k).getD "")) "nfc" = false →
      norm_txt ((dget? d k).getD "") ≠ "65" →
      is_nfe_questor d = true) ∧
    (first_key d ["especie", "especie_documento", "tipo", "tipo_documento"] = some k →
      containsSub (norm_txt ((dget? d k).getD "")) "nfc" = false →
      norm_txt ((dget? d k).getD "") ≠ "65" →
      containsSub (norm_txt ((dget? d k).getD "")) "nfe" = false →
      norm_txt ((dget? d k).getD "") ≠ "55" →
      is_nfe_questor d = nfeModelo d) ∧
    (first_key d ["especie", "especie_documento", "tipo", "tipo_documento"] = none →
      is_nfe_questor d = nfeModelo d) ∧
    (first_key d ["modelodocumento", "modelo_documento", "modelo", "mod",
                  "modelo_nf", "modelo_nfe", "modelo_nfce"] = some km →
      (containsSub (norm_txt ((dget? d km).getD "")) "65" ||
       containsSub (norm_txt ((dget? d km).getD "")) "nfce" ||
       containsSub (norm_txt ((dget? d km).getD "")) "nfc") = true →
      nfeModelo d = false) ∧
    (first_key d ["modelodocumento", "modelo_documento", "modelo", "mod",
                  "modelo_nf", "modelo_nfe", "modelo_nfce"] = some km →
      containsSub (norm_txt ((dget? d km).getD "")) "65" = false →
      containsSub (norm_txt ((dget? d km).getD "")) "nfc" = false →
      containsSub (norm_txt ((dget? d km).getD "")) "55" = true →
      nfeModelo d = true) ∧
    (first_key d ["modelodocumento", "modelo_documento", "modelo", "mod",
                  "modelo_nf", "modelo_nfe", "modelo_nfce"] = none →
      nfeModelo d = nfeChave d) ∧
    (first_key d ["chaveacesso", "chave_de_acesso", "chave", "accesskey"] = some kc →
      (digits_only ((dget? d kc).getD "")).data.length ≥ 22 →
      (⟨((digits_only ((dget? d kc).getD "")).data.drop 20).take 2⟩ : String) = "55" →
      nfeChave d = true) ∧
    (first_key d ["chaveacesso", "chave_de_acesso", "chave", "accesskey"] = some kc →
      (digits_only ((dget? d kc).getD "")).data.length ≥ 22 →
      (⟨((digits_only ((dget? d kc).getD "")).data.drop 20).take 2⟩ : String) = "65" →
      nfeChave d = false) ∧
    (first_key d ["especie", "especie_documento", "tipo", "tipo_documento"] = none →
      first_key d ["modelodocumento", "modelo_documento", "modelo", "mod",
                   "modelo_nf", "modelo_nfe", "modelo_nfce"] = none →
      first_key d ["chaveacesso", "chave_de_acesso", "chave", "accesskey"] = none →
      is_nfe_questor d = false) ∧
    (is_nfe_questor (row_to_norm_dict ctx.headers row) = true →
      (questorStep ctx st row).maps = st.maps) := by
  refine ⟨?_, ?_, ?_, ?_, ?_, ?_, ?_, ?_, ?_, ?_, ?_⟩
  · intro hk hc
    simp [is_nfe_questor, hk, hc]
  · intro hk hc hnc h65
    have hce : containsSub (norm_txt ((dget? d k).getD "")) "nfce" = false := by
      cases hx : containsSub (norm_txt ((dget? d k).getD "")) "nfce"
      · rfl
      · exact absurd (containsSub_nfce_nfc _ hx) (by simp [hnc])
    simp [is_nfe_questor, hk, hce, hnc, h65, hc]
  · intro hk hnc h65 hnfe h55
    have hce : containsSub (norm_txt ((dget? d k).getD "")) "nfce" = false := by
      cases hx : containsSub (norm_txt ((dget? d k).getD "")) "nfce"
      · rfl
      · exact absurd (containsSub_nfce_nfc _ hx) (by simp [hnc])
    have hel : containsSub (norm_txt ((dget? d k).getD "")) "nfeletronica" = false := by
      cases hx : containsSub (norm_txt ((dget? d k).getD "")) "nfeletronica"
      · rfl
      · exact absurd (containsSub_nfeletronica_nfe _ hx) (by simp [hnfe])
    simp [is_nfe_questor, hk, hce, hnc, h65, hnfe, hel, h55]
  · intro hk
    simp [is_nfe_questor, hk]
  · intro hk hv
    simp only [nfeModelo, hk]
    rw [if_pos hv]
  · intro hk h65 hnc h55
    have hce : containsSub (norm_txt ((dget? d km).getD "")) "nfce" = false := by
      cases hx : containsSub (norm_txt ((dget? d km).getD "")) "nfce"
      · rfl
      · exact absurd (containsSub_nfce_nfc _ hx) (by simp [hnc])
    simp [nfeModelo, hk, h65, hce, hnc, h55]
  · intro hk
    simp [nfeModelo, hk]
  · intro hk hlen hmod
    simp [nfeChave, hk, hlen, hmod]
    exact hlen
  · intro hk hlen hmod
    simp [nfeChave, hk, hlen, hmod]
  · intro h1 h2 h3
    simp [is_nfe_questor, nfeModelo, nfeChave, h1, h2, h3]
  · intro hn
    unfold questorStep
    cases hf : rangeFilterFails ctx.dtIni ctx.dtFim (rowDate ctx row) <;>
      simp [hf, hn]

/-- Witness for C2's corrected claim, applying every clause at a concrete
row: a species `NFC-e` row is included; a species `NF-e` row is excluded; a
species value matching nothing defers to the model branch, as does an
unresolved species field; a model `65` row is included and a model `55` row
excluded; an unresolved model field defers to the access key, whose digits
at offset 20-22 exclude on `55` and include on `65`; a fully unresolvable
row is included; and an excluded row leaves the tables untouched. -/
theorem classifier_polarity_witness :
    is_nfe_questor [("especie", "NFC-e")] = false ∧
    is_nfe_questor [("especie", "NF-e")] = true ∧
    is_nfe_questor [("especie", "CTE"), ("modelo", "65")] =
      nfeModelo [("especie", "CTE"), ("modelo", "65")] ∧
    is_nfe_questor [("modelo", "65")] = nfeModelo [("modelo", "65")] ∧
    nfeModelo [("modelo", "65")] = false ∧
    nfeModelo [("modelo", "55")] = true ∧
    nfeModelo [("chaveacesso", "1234567890123456789055")] =
      nfeChave [("chaveacesso", "1234567890123456789055")] ∧
    nfeChave [("chaveacesso", "1234567890123456789055")] = true ∧
    nfeChave [("chaveacesso", "1234567890123456789065")] = false ∧
    is_nfe_questor [] = false ∧
    (questorStep (mkQCtx receiptHeaders "numerodocumento" "valor" none none none none)
        ⟨⟨[], [], [], []⟩, 0, 0⟩ [some "NF-e", some "7", some "10"]).maps =
      ({ docE := [], docD := [], pairE := [], pairD := [] } : QMaps) := by
  refine ⟨?_, ?_, ?_, ?_, ?_, ?_, ?_, ?_, ?_, ?_, ?_⟩
  · exact (classifier_polarity [("especie", "NFC-e")] "especie" "" ""
      (mkQCtx receiptHeaders "numerodocumento" "valor" none none none none)
      ⟨⟨[], [], [], []⟩, 0, 0⟩ []).1 rfl rfl
  · exact (classifier_polarity [("especie", "NF-e")] "especie" "" ""
      (mkQCtx receiptHeaders "numerodocumento" "valor" none none none none)
      ⟨⟨[], [], [], []⟩, 0, 0⟩ []).2.1 rfl rfl rfl (by decide)
  · exact (classifier_polarity [("especie", "CTE"), ("modelo", "65")] "especie" "" ""
      (mkQCtx receiptHeaders "numerodocumento" "valor" none none none none)
      ⟨⟨[], [], [], []⟩, 0, 0⟩ []).2.2.1 rfl (by decide) (by decide) (by decide)
      (by decide)
  · exact (classifier_polarity [("modelo", "65")] "" "" ""
      (mkQCtx receiptHeaders "numerodocumento" "valor" none none none none)
      ⟨⟨[], [], [], []⟩, 0, 0⟩ []).2.2.2.1 rfl
  · exact (classifier_polarity [("modelo", "65")] "" "modelo" ""
      (mkQCtx receiptHeaders "numerodocumento" "valor" none none none none)
      ⟨⟨[], [], [], []⟩, 0, 0⟩ []).2.2.2.2.1 rfl (by decide)
  · exact (classifier_polarity [("modelo", "55")] "" "modelo" ""
      (mkQCtx receiptHeaders "numerodocumento" "valor" none none none none)
      ⟨⟨[], [], [], []⟩, 0, 0⟩ []).2.2.2.2.2.1 rfl (by decide) (by decide)
      (by decide)
  · exact (classifier_polarity [("chaveacesso", "1234567890123456789055")] "" "" ""
      (mkQCtx receiptHeaders "numerodocumento" "valor" none none none none)
      ⟨⟨[], [], [], []⟩, 0, 0⟩ []).2.2.2.2.2.2.1 rfl
  · exact (classifier_polarity [("chaveacesso", "1234567890123456789055")] "" ""
      "chaveacesso"
      (mkQCtx receiptHeaders "numerodocumento" "valor" none none none none)
      ⟨⟨[], [], [], []⟩, 0, 0⟩ []).2.2.2.2.2.2.2.1 rfl (by decide) (by decide)
  · exact (classifier_polarity [("chaveacesso", "1234567890123456789065")] "" ""
      "chaveacesso"
      (mkQCtx receiptHeaders "numerodocumento" "valor" none none none none)
      ⟨⟨[], [], [], []⟩, 0, 0⟩ []).2.2.2.2.2.2.2.2.1 rfl (by decide) (by decide)
  · exact (classifier_polarity [] "" "" ""
      (mkQCtx receiptHeaders "numerodocumento" "valor" none none none none)
      ⟨⟨[], [], [], []⟩, 0, 0⟩ []).2.2.2.2.2.2.2.2.2.1 rfl rfl rfl
  · exact (classifier_polarity [] "" "" ""
      (mkQCtx receiptHeaders "numerodocumento" "valor" none none none none)
      ⟨⟨[], [], [], []⟩, 0, 0⟩
      [some "NF-e", some "7", some "10"]).2.2.2.2.2.2.2.2.2.2 rfl

/-- Counterexample for C2 as frozen: the claim says a receipt-marked row is
excluded from the lookup tables; the code classifies the `NFC-e` row as
comparable and indexes its value 10 under document key `7` in both
document-only tables. -/
theorem receipt_row_indexed_counterexample :
    is_nfe_questor [("especie", "NFC-e")] = false ∧
    (match questor_map_por_documento receiptHeaders receiptRows none none with
     | .ok (m, _) => some (dget? m.docE "7", dget? m.docD "7")
     | .error _ => none) = some (some ⟨10, 1⟩, some ⟨10, 1⟩) := by
  exact ⟨by decide, by decide⟩

/-- Claim C6: an accepted indexer row updates exactly one family of lookup
tables — with a non-empty series string both pair tables receive the addition
and both document-only tables are untouched; with an absent or empty series
both document-only tables receive it and both pair tables are untouched. -/
theorem indexer_row_updates_one_family (ctx : QCtx) (st : QState)
    (row : List (Option String))
    (hdate : rangeFilterFails ctx.dtIni ctx.dtFim (rowDate ctx row) = false)
    (hnfe : is_nfe_questor (row_to_norm_dict ctx.headers row) = false)
    (hnum : strTrim (rowRawNum ctx row) ≠ "") :
    (rowSerie ctx row ≠ "" →
      (questorStep ctx st row).maps.pairE =
        dadd st.maps.pairE (norm_pair (rowRawNum ctx row) (rowSerie ctx row)).1
          (rowValQ ctx row) ∧
      (questorStep ctx st row).maps.pairD =
        dadd st.maps.pairD (norm_pair (rowRawNum ctx row) (rowSerie ctx row)).2
          (rowValQ ctx row) ∧
      (questorStep ctx st row).maps.docE = st.maps.docE ∧
      (questorStep ctx st row).maps.docD = st.maps.docD) ∧
    (rowSerie ctx row = "" →
      (questorStep ctx st row).maps.docE =
        dadd st.maps.docE (norm_doc (rowRawNum ctx row)).1 (rowValQ ctx row) ∧
      (questorStep ctx st row).maps.docD =
        dadd st.maps.docD (norm_doc (rowRawNum ctx row)).2 (rowValQ ctx row) ∧
      (questorStep ctx st row).maps.pairE = st.maps.pairE ∧
      (questorStep ctx st row).maps.pairD = st.maps.pairD) := by
  constructor
  · intro hser
    simp [questorStep, hdate, hnfe, hnum, hser]
  · intro hser
    simp [questorStep, hdate, hnfe, hnum, hser]

/-- Witness for C6, applying both clauses: a row with series `1` feeds only
the pair tables, a row with no series cell feeds only the document tables. -/
theorem indexer_row_updates_one_family_witness :
    ((questorStep (mkQCtx zeroPairHeaders "numerodocumento" "valor"
          (some "serie") none none none) ⟨⟨[], [], [], []⟩, 0, 0⟩
        [some "123", some "1", some "150"]).maps.pairE =
      dadd [] "123|1" ⟨150, 1⟩ ∧
      (questorStep (mkQCtx zeroPairHeaders "numerodocumento" "valor"
          (some "serie") none none none) ⟨⟨[], [], [], []⟩, 0, 0⟩
        [some "123", some "1", some "150"]).maps.docE = []) ∧
    ((questorStep (mkQCtx zeroPairHeaders "numerodocumento" "valor"
          (some "serie") none none none) ⟨⟨[], [], [], []⟩, 0, 0⟩
        [some "123", none, some "150"]).maps.docE =
      dadd [] "123" ⟨150, 1⟩ ∧
      (questorStep (mkQCtx zeroPairHeaders "numerodocumento" "valor"
          (some "serie") none none none) ⟨⟨[], [], [], []⟩, 0, 0⟩
        [some "123", none, some "150"]).maps.pairE = []) := by
  constructor
  · have h := (indexer_row_updates_one_family
      (mkQCtx zeroPairHeaders "numerodocumento" "valor" (some "serie") none none none)
      ⟨⟨[], [], [], []⟩, 0, 0⟩ [some "123", some "1", some "150"]
      rfl rfl (by decide)).1 (by decide)
    exact ⟨by rw [h.1]; decide, by rw [h.2.2.1]⟩
  · have h := (indexer_row_updates_one_family
      (mkQCtx zeroPairHeaders "numerodocumento" "valor" (some "serie") none none none)
      ⟨⟨[], [], [], []⟩, 0, 0⟩ [some "123", none, some "150"]
      rfl rfl (by decide)).2 (by decide)
    exact ⟨by rw [h.1]; decide, by rw [h.2.2.1]⟩

/-- Claim C4 (corrected): a non-empty row whose derived competency period is
null is inserted fresh only when the preloaded index holds no record under
the `(company, null, sheet, row)` key; when such a record exists — e.g. after
a previous import of the same sheet with undetermined issue dates — the row
is matched and becomes an update, not an insert. -/
theorem null_competency_row_upsert (emp : Nat) (compParam : Option CalDate)
    (sheetName : String) (headerKeys : List String) (r : Nat)
    (row : List (Option String)) (st : ImpState)
    (hne : rowEmpty headerKeys row = false)
    (hc : rowCompetencia compParam (rowData headerKeys row) = none) :
    (∀ i, dget? st.emap (emp, (none : Option CalDate), sheetName, r) = some i →
      (importRow emp compParam sheetName headerKeys r row st).criados = st.criados ∧
      (importRow emp compParam sheetName headerKeys r row st).store.length =
        st.store.length ∧
      (importRow emp compParam sheetName headerKeys r row st).atualizados =
        st.atualizados + 1) ∧
    (dget? st.emap (emp, (none : Option CalDate), sheetName, r) = none →
      (importRow emp compParam sheetName headerKeys r row st).criados =
        st.criados + 1 ∧
      (importRow emp compParam sheetName headerKeys r row st).store =
        st.store ++ [mkSatRec emp sheetName r (rowData headerKeys row)
          (extr_data_emissao_dict (rowData headerKeys row)) none]) := by
  constructor
  · intro i hi
    simp [importRow, hne, hc, hi]
  · intro hi
    simp [importRow, hne, hc, hi]

/-- Witness for C4's corrected claim: the dateless row at `(1, null, Plan1, 2)`
updates the store when the key is preloaded and is appended fresh when the
index is empty. -/
theorem null_competency_row_upsert_witness :
    ((importRow 1 none "Plan1" ["produto"] 2 [some "X"]
        ⟨[nullCompRec], loadMap [nullCompRec], 0, 0, 0⟩).criados = 0 ∧
      (importRow 1 none "Plan1" ["produto"] 2 [some "X"]
        ⟨[nullCompRec], loadMap [nullCompRec], 0, 0, 0⟩).atualizados = 1) ∧
    ((importRow 1 none "Plan1" ["produto"] 2 [some "X"]
        ⟨[], [], 0, 0, 0⟩).criados = 1) := by
  constructor
  · have h := (null_competency_row_upsert 1 none "Plan1" ["produto"] 2 [some "X"]
      ⟨[nullCompRec], loadMap [nullCompRec], 0, 0, 0⟩ rfl rfl).1 0 (by decide)
    exact ⟨by rw [h.1], by rw [h.2.2]⟩
  · have h := (null_competency_row_upsert 1 none "Plan1" ["produto"] 2 [some "X"]
      ⟨[], [], 0, 0, 0⟩ rfl rfl).2 rfl
    exact by rw [h.1]

/-- Counterexample for C4 as frozen: the claim says a null-competency row is
always inserted fresh and never matched for update; importing the dateless
one-row workbook into a store already holding `(1, null, Plan1, 2)` performs
zero inserts and one update, leaving the row count at 1. -/
theorem null_competency_matched_counterexample :
    (sat_importar 1 none nullCompWb [nullCompRec]).criados = 0 ∧
    (sat_importar 1 none nullCompWb [nullCompRec]).atualizados = 1 ∧
    (sat_importar 1 none nullCompWb [nullCompRec]).store.length = 1 := by
  exact ⟨by decide, by decide, by decide⟩

theorem tot3Add_zero (a : Tot3) : tot3Add a tot3Zero = a := by
  cases a; simp [tot3Add, tot3Zero, PyDec.add_zero]

theorem tot3Zero_add (a : Tot3) : tot3Add tot3Zero a = a := by
  cases a; simp [tot3Add, tot3Zero, PyDec.zero_add]

theorem tot3Add_assoc (a b c : Tot3) :
    tot3Add (tot3Add a b) c = tot3Add a (tot3Add b c) := by
  cases a; cases b; cases c; simp [tot3Add, PyDec.add_assoc]

theorem tot3Foldl_acc (l : List Tot3) :
    ∀ acc, l.foldl tot3Add acc = tot3Add acc (l.foldl tot3Add tot3Zero) := by
  induction l with
  | nil => intro acc; simp [tot3Add_zero]
  | cons x rest ih =>
    intro acc
    simp only [List.foldl_cons]
    rw [ih (tot3Add acc x), ih (tot3Add tot3Zero x), tot3Zero_add, tot3Add_assoc]

theorem tot3Sum_nil : tot3Sum [] = tot3Zero := rfl

theorem tot3Sum_cons (t : Tot3) (l : List Tot3) :
    tot3Sum (t :: l) = tot3Add t (tot3Sum l) := by
  simp only [tot3Sum, List.foldl_cons]
  rw [tot3Foldl_acc, tot3Zero_add]

/-- Every accepted row's triple enters the Questor totals, via the per-key
dictionaries. -/
theorem quest_tot_fold (ctx : QCtx) (rows : List (List (Option String))) :
    ∀ st : TState,
      (⟨dsum ((rows.foldl (totStep ctx) st).valor),
        dsum ((rows.foldl (totStep ctx) st).bc),
        dsum ((rows.foldl (totStep ctx) st).icms)⟩ : Tot3) =
      tot3Add ⟨dsum st.valor, dsum st.bc, dsum st.icms⟩
        (tot3Sum ((rows.filter (totAccept ctx)).map (totTriple ctx))) := by
  induction rows with
  | nil => intro st; simp [tot3Sum_nil, tot3Add_zero]
  | cons row rest ih =>
    intro st
    simp only [List.foldl_cons, List.filter_cons]
    cases ha : totAccept ctx row
    · simp only [Bool.false_eq_true, if_false]
      have hs : totStep ctx st row = st := by simp [totStep, ha]
      rw [hs]
      exact ih st
    · simp only [if_true]
      have hs : totStep ctx st row =
          ⟨dadd st.valor (totKey ctx row) (totTriple ctx row).valor,
           dadd st.bc (totKey ctx row) (totTriple ctx row).bc,
           dadd st.icms (totKey ctx row) (totTriple ctx row).icms⟩ := by
        simp [totStep, ha, totTriple]
      rw [hs, ih]
      simp only [dsum_dadd, List.map_cons]
      rw [tot3Sum_cons, ← tot3Add_assoc]
      rfl

/-- The SAT totals fold sums exactly the first-occurrence rows. -/
theorem sat_tot_fold (dtIni dtFim : Option CalDate) (recs : List SatData) :
    ∀ (t : Tot3) (seen : List String),
      (recs.foldl (satTotStep dtIni dtFim) (t, seen)).1 =
        tot3Add t (tot3Sum ((satKeepAux dtIni dtFim seen recs).map satTriple)) := by
  induction recs with
  | nil => intro t seen; simp [satKeepAux, tot3Sum_nil, tot3Add_zero]
  | cons d rest ih =>
    intro t seen
    simp only [List.foldl_cons]
    cases ha : satTotAccept dtIni dtFim d
    · have hs : satTotStep dtIni dtFim (t, seen) d = (t, seen) := by
        simp [satTotStep, ha]
      rw [hs]
      simp only [satKeepAux, ha, Bool.false_eq_true, if_false]
      exact ih t seen
    · by_cases hk : satKey d ∈ seen
      · have hs : satTotStep dtIni dtFim (t, seen) d = (t, seen) := by
          simp [satTotStep, ha, hk]
        rw [hs]
        simp only [satKeepAux, ha, if_true, hk]
        exact ih t seen
      · have hs : satTotStep dtIni dtFim (t, seen) d =
            (tot3Add t (satTriple d), satKey d :: seen) := by
          simp [satTotStep, ha, hk, tot3Add, satTriple]
        rw [hs, ih]
        simp only [satKeepAux, ha, if_true, hk, if_false, List.map_cons]
        rw [tot3Sum_cons, ← tot3Add_assoc]

/-- The seen-set recursion is the first-occurrence-wins dedup. -/
theorem satKeep_eq_dedup (dtIni dtFim : Option CalDate) (recs : List SatData) :
    ∀ seen : List String,
      satKeepAux dtIni dtFim seen recs =
        dedupFirstByKey satKey
          ((recs.filter (satTotAccept dtIni dtFim)).filter
            (fun d => !(seen.contains (satKey d)))) := by
  induction recs with
  | nil => intro seen; simp [satKeepAux, dedupFirstByKey]
  | cons d rest ih =>
    intro seen
    cases ha : satTotAccept dtIni dtFim d
    · simp only [satKeepAux, ha, Bool.false_eq_true, if_false, List.filter_cons]
      exact ih seen
    · by_cases hk : satKey d ∈ seen
      · have hc : seen.contains (satKey d) = true := by simp [hk]
        simp only [satKeepAux, ha, if_true, hk, List.filter_cons, hc,
          Bool.not_true, Bool.false_eq_true, if_false]
        exact ih seen
      · have hc : seen.contains (satKey d) = false := by simp [hk]
        simp only [satKeepAux, ha, if_true, hk, if_false, List.filter_cons, hc,
          Bool.not_false]
        rw [dedupFirstByKey]
        congr 1
        rw [ih (satKey d :: seen)]
        congr 1
        rw [List.filter_filter, List.filter_filter, List.filter_filter]
        apply List.filter_congr
        intro x hx
        by_cases hxk : satKey x = satKey d <;>
          by_cases hsx : satKey x ∈ seen <;>
            simp [hxk, hsx, Bool.and_comm]

/-- Claim C5: the period aggregator is deliberately asymmetric.  On the
Questor side the totals equal the sum of the triples of every accepted row
(rows sharing a pair key are merged in the per-key dictionaries, but every
row's quantities enter the grand total); on the SAT side the totals equal the
sum over the first-occurrence-per-pair-key rows only — a later row with an
already-seen pair key is skipped entirely, not summed. -/
theorem period_aggregator_asymmetry :
    (∀ (headers : List (Option String)) (rows : List (List (Option String)))
       (dtIni dtFim : Option CalDate) (kn : String),
       first_key (colsOf headers) candNumQ = some kn →
       questor_totais_periodo headers rows dtIni dtFim =
         tot3Sum ((rows.filter (totAccept (totCtx headers kn dtIni dtFim))).map
           (totTriple (totCtx headers kn dtIni dtFim)))) ∧
    (∀ (recs : List SatData) (dtIni dtFim : Option CalDate),
       sat_totais_periodo recs dtIni dtFim =
         tot3Sum ((dedupFirstByKey satKey
           (recs.filter (satTotAccept dtIni dtFim))).map satTriple)) := by
  constructor
  · intro headers rows dtIni dtFim kn hkn
    have h1 : questor_totais_periodo headers rows dtIni dtFim =
        ⟨dsum ((rows.foldl (totStep (totCtx headers kn dtIni dtFim)) ⟨[], [], []⟩).valor),
         dsum ((rows.foldl (totStep (totCtx headers kn dtIni dtFim)) ⟨[], [], []⟩).bc),
         dsum ((rows.foldl (totStep (totCtx headers kn dtIni dtFim)) ⟨[], [], []⟩).icms)⟩ := by
      simp only [questor_totais_periodo, hkn]
      rfl
    rw [h1, quest_tot_fold]
    exact tot3Zero_add _
  · intro recs dtIni dtFim
    have h1 : sat_totais_periodo recs dtIni dtFim =
        (recs.foldl (satTotStep dtIni dtFim) (tot3Zero, [])).1 := rfl
    have h2 : ∀ d : SatData, (([] : List String).contains (satKey d)) = false :=
      fun d => rfl
    rw [h1, sat_tot_fold, tot3Zero_add, satKeep_eq_dedup]
    simp [h2]

/-- Witness for C5, applying both clauses at concrete data: a sheet with two
rows of the same pair key sums both on the Questor side, while two SAT rows
with the same pair key contribute only the first. -/
theorem period_aggregator_asymmetry_witness :
    questor_totais_periodo [some "NumeroDocumento", some "Valor Total Nota"]
        [[some "9", some "10"], [some "9", some "20"]] none none =
      tot3Sum (([[some "9", some "10"], [some "9", some "20"]].filter
          (totAccept (totCtx [some "NumeroDocumento", some "Valor Total Nota"]
            "numerodocumento" none none))).map
        (totTriple (totCtx [some "NumeroDocumento", some "Valor Total Nota"]
          "numerodocumento" none none))) ∧
    sat_totais_periodo
        [[("numerodocumento", some "9"), ("valor_total_nota", some "10")],
         [("numerodocumento", some "9"), ("valor_total_nota", some "20")]]
        none none =
      tot3Sum ((dedupFirstByKey satKey
        ([[("numerodocumento", some "9"), ("valor_total_nota", some "10")],
          [("numerodocumento", some "9"), ("valor_total_nota", some "20")]].filter
          (satTotAccept none none))).map satTriple) :=
  ⟨period_aggregator_asymmetry.1 [some "NumeroDocumento", some "Valor Total Nota"]
      [[some "9", some "10"], [some "9", some "20"]] none none "numerodocumento" rfl,
   period_aggregator_asymmetry.2
      [[("numerodocumento", some "9"), ("valor_total_nota", some "10")],
       [("numerodocumento", some "9"), ("valor_total_nota", some "20")]] none none⟩

/-- Soundness of the preloaded index, generalised over the scan position. -/
theorem loadMapAux_good (s : List SatRec) (rest : List SatRec) :
    ∀ (j : Nat) (m : List (RKey × Nat)),
      (∀ i r, rest.get? i = some r → s.get? (j + i) = some r) →
      (∀ k i, dget? m k = some i → ∃ rec, s.get? i = some rec ∧ keyOfRec rec = k) →
      ∀ k i, dget? (loadMapAux j rest m) k = some i →
        ∃ rec, s.get? i = some rec ∧ keyOfRec rec = k := by
  induction rest with
  | nil => intro j m _ hm k i h; exact hm k i h
  | cons r rest' ih =>
    intro j m halign hm k i h
    refine ih (j + 1) (dinsert m (keyOfRec r) j) ?_ ?_ k i h
    · intro i2 r2 h2
      have h3 := halign (i2 + 1) r2 (by simpa using h2)
      have harith : j + (i2 + 1) = j + 1 + i2 := by omega
      rwa [harith] at h3
    · intro k2 i2 h2
      rw [dget?_dinsert] at h2
      by_cases hk2 : k2 = keyOfRec r
      · rw [if_pos hk2] at h2
        have hj : i2 = j := (Option.some.inj h2).symm
        subst hj
        have h0 := halign 0 r (by simp)
        exact ⟨r, by simpa using h0, hk2.symm⟩
      · rw [if_neg hk2] at h2
        exact hm k2 i2 h2

/-- Every entry of the preloaded index points at a record with that key. -/
theorem loadMap_good (s : List SatRec) :
    ∀ k i, dget? (loadMap s) k = some i →
      ∃ rec, s.get? i = some rec ∧ keyOfRec rec = k := by
  apply loadMapAux_good s s 0 []
  · intro i r h; simpa using h
  · intro k i h; simp [dget?, List.find?] at h

/-- Key presence in the index survives the rest of the preload. -/
theorem loadMapAux_mono (rest : List SatRec) :
    ∀ (j : Nat) (m : List (RKey × Nat)) (k : RKey),
      (dget? m k).isSome → (dget? (loadMapAux j rest m) k).isSome := by
  induction rest with
  | nil => intro j m k h; exact h
  | cons r rest' ih =>
    intro j m k h
    apply ih
    rw [dget?_dinsert]
    by_cases hk : k = keyOfRec r <;> simp [hk, h]

/-- A key carried by the scanned suffix ends up in the index. -/
theorem loadMapAux_mem (rest : List SatRec) :
    ∀ (j : Nat) (m : List (RKey × Nat)) (k : RKey),
      (∃ i rec, rest.get? i = some rec ∧ keyOfRec rec = k) →
      (dget? (loadMapAux j rest m) k).isSome := by
  induction rest with
  | nil =>
    rintro j m k ⟨i, rec, h, _⟩
    simp at h
  | cons r rest' ih =>
    rintro j m k ⟨i, rec, h, hkey⟩
    cases i with
    | zero =>
      have hr : rec = r := by simpa using h.symm
      subst hr
      show (dget? (loadMapAux (j + 1) rest' (dinsert m (keyOfRec rec) j)) k).isSome = true
      apply loadMapAux_mono
      rw [dget?_dinsert, if_pos hkey.symm]
      rfl
    | succ i2 =>
      exact ih (j + 1) _ k ⟨i2, rec, by simpa using h, hkey⟩

/-- A key carried by the store is covered by its preloaded index. -/
theorem loadMap_covers (s : List SatRec) (k : RKey) :
    StoreHasKey s k → (dget? (loadMap s) k).isSome := by
  rintro ⟨i, rec, h, hk⟩
  exact loadMapAux_mem s 0 [] k ⟨i, rec, h, hk⟩

theorem importRow_eq_empty (emp : Nat) (compParam : Option CalDate)
    (sheetName : String) (headerKeys : List String) (r : Nat)
    (row : List (Option String)) (st : ImpState)
    (he : rowEmpty headerKeys row = true) :
    importRow emp compParam sheetName headerKeys r row st =
      { st with ignorados := st.ignorados + 1 } := by
  simp [importRow, he]

theorem importRow_eq_update (emp : Nat) (compParam : Option CalDate)
    (sheetName : String) (headerKeys : List String) (r : Nat)
    (row : List (Option String)) (st : ImpState) (i : Nat)
    (he : rowEmpty headerKeys row = false)
    (hm : dget? st.emap
      (emp, rowCompetencia compParam (rowData headerKeys row), sheetName, r) = some i) :
    importRow emp compParam sheetName headerKeys r row st =
      { st with
        store := st.store.set i (updateRec
          (st.store.getD i (mkSatRec emp sheetName r (rowData headerKeys row)
            (extr_data_emissao_dict (rowData headerKeys row))
            (rowCompetencia compParam (rowData headerKeys row))))
          (rowData headerKeys row)
          (extr_data_emissao_dict (rowData headerKeys row))
          (rowCompetencia compParam (rowData headerKeys row)))
        atualizados := st.atualizados + 1 } := by
  simp [importRow, he, hm]

theorem importRow_eq_create (emp : Nat) (compParam : Option CalDate)
    (sheetName : String) (headerKeys : List String) (r : Nat)
    (row : List (Option String)) (st : ImpState)
    (he : rowEmpty headerKeys row = false)
    (hm : dget? st.emap
      (emp, rowCompetencia compParam (rowData headerKeys row), sheetName, r) = none) :
    importRow emp compParam sheetName headerKeys r row st =
      { st with
        store := st.store ++ [mkSatRec emp sheetName r (rowData headerKeys row)
          (extr_data_emissao_dict (rowData headerKeys row))
          (rowCompetencia compParam (rowData headerKeys row))]
        emap := dinsert st.emap
          (emp, rowCompetencia compParam (rowData headerKeys row), sheetName, r)
          st.store.length
        criados := st.criados + 1 } := by
  simp [importRow, he, hm]

theorem keyOf_mkSatRec (emp : Nat) (sheetName : String) (r : Nat)
    (data : List (String × Option String)) (dtEm comp : Option CalDate) :
    keyOfRec (mkSatRec emp sheetName r data dtEm comp) = (emp, comp, sheetName, r) := rfl

theorem keyOf_updateRec (old : SatRec) (data : List (String × Option String))
    (dtEm comp : Option CalDate) :
    keyOfRec (updateRec old data dtEm comp) =
      (old.empresa, comp, old.sheet, old.row) := rfl

/-- One import step keeps the existing-key index sound. -/
theorem importRow_good (emp : Nat) (compParam : Option CalDate)
    (sheetName : String) (headerKeys : List String) (r : Nat)
    (row : List (Option String)) (st : ImpState) (h : EmapGood st) :
    EmapGood (importRow emp compParam sheetName headerKeys r row st) := by
  cases he : rowEmpty headerKeys row
  case true => rw [importRow_eq_empty emp compParam sheetName headerKeys r row st he]; exact h
  case false =>
    cases hm : dget? st.emap
        (emp, rowCompetencia compParam (rowData headerKeys row), sheetName, r) with
    | some i0 =>
      rw [importRow_eq_update emp compParam sheetName headerKeys r row st i0 he hm]
      intro k j hj
      have hj2 : dget? st.emap k = some j := hj
      obtain ⟨rec, hrec, hkey⟩ := h k j hj2
      by_cases hji : j = i0
      · subst hji
        obtain ⟨rec0, hrec0, hkey0⟩ := h _ _ hm
        have hrr : rec = rec0 := by
          rw [hrec] at hrec0
          exact Option.some.inj hrec0
        have hlen : j < st.store.length := (List.get?_eq_some.mp hrec).1
        have hgd : st.store.getD j (mkSatRec emp sheetName r (rowData headerKeys row)
            (extr_data_emissao_dict (rowData headerKeys row))
            (rowCompetencia compParam (rowData headerKeys row))) = rec0 := by
          show (st.store.get? j).getD _ = rec0
          rw [hrec0]
          rfl
        refine ⟨updateRec rec0 (rowData headerKeys row)
          (extr_data_emissao_dict (rowData headerKeys row))
          (rowCompetencia compParam (rowData headerKeys row)), ?_, ?_⟩
        · show (st.store.set j _).get? j = _
          rw [hgd]
          exact List.get?_set_eq_of_lt _ hlen
        · rw [keyOf_updateRec]
          have hk : k = (emp, rowCompetencia compParam (rowData headerKeys row),
              sheetName, r) := by
            rw [← hkey, hrr, hkey0]
          rw [hk]
          simp only [keyOfRec, Prod.ext_iff] at hkey0
          obtain ⟨h1, _, h3, h4⟩ := hkey0
          simp [h1, h3, h4]
      · refine ⟨rec, ?_, hkey⟩
        show (st.store.set i0 _).get? j = some rec
        rw [List.get?_set_ne _ _ (fun hc => hji hc.symm)]
        exact hrec
    | none =>
      rw [importRow_eq_create emp compParam sheetName headerKeys r row st he hm]
      intro k j hj
      have hj2 : dget? (dinsert st.emap
          (emp, rowCompetencia compParam (rowData headerKeys row), sheetName, r)
          st.store.length) k = some j := hj
      rw [dget?_dinsert] at hj2
      by_cases hk : k = (emp, rowCompetencia compParam (rowData headerKeys row),
          sheetName, r)
      · rw [if_pos hk] at hj2
        have hjl : j = st.store.length := (Option.some.inj hj2).symm
        subst hjl
        refine ⟨mkSatRec emp sheetName r (rowData headerKeys row)
          (extr_data_emissao_dict (rowData headerKeys row))
          (rowCompetencia compParam (rowData headerKeys row)), ?_, ?_⟩
        · exact List.get?_concat_length _ _
        · rw [keyOf_mkSatRec, hk]
      · rw [if_neg hk] at hj2
        obtain ⟨rec, hrec, hkey⟩ := h k j hj2
        have hjl : j < st.store.length := (List.get?_eq_some.mp hrec).1
        refine ⟨rec, ?_, hkey⟩
        show (st.store ++ _).get? j = some rec
        rw [List.get?_append hjl]
        exact hrec

/-- One import step never loses a key from the store. -/
theorem importRow_hasKey (emp : Nat) (compParam : Option CalDate)
    (sheetName : String) (headerKeys : List String) (r : Nat)
    (row : List (Option String)) (st : ImpState) (k0 : RKey)
    (h : EmapGood st) (hk : StoreHasKey st.store k0) :
    StoreHasKey (importRow emp compParam sheetName headerKeys r row st).store k0 := by
  obtain ⟨j, rec, hrec, hkey⟩ := hk
  cases he : rowEmpty headerKeys row
  case true =>
    rw [importRow_eq_empty emp compParam sheetName headerKeys r row st he]
    exact ⟨j, rec, hrec, hkey⟩
  case false =>
    cases hm : dget? st.emap
        (emp, rowCompetencia compParam (rowData headerKeys row), sheetName, r) with
    | some i0 =>
      rw [importRow_eq_update emp compParam sheetName headerKeys r row st i0 he hm]
      by_cases hji : j = i0
      · subst hji
        obtain ⟨rec0, hrec0, hkey0⟩ := h _ _ hm
        have hrr : rec = rec0 := by
          rw [hrec] at hrec0
          exact Option.some.inj hrec0
        have hlen : j < st.store.length := (List.get?_eq_some.mp hrec).1
        have hgd : st.store.getD j (mkSatRec emp sheetName r (rowData headerKeys row)
            (extr_data_emissao_dict (rowData headerKeys row))
            (rowCompetencia compParam (rowData headerKeys row))) = rec0 := by
          show (st.store.get? j).getD _ = rec0
          rw [hrec0]
          rfl
        refine ⟨j, updateRec rec0 (rowData headerKeys row)
          (extr_data_emissao_dict (rowData headerKeys row))
          (rowCompetencia compParam (rowData headerKeys row)), ?_, ?_⟩
        · show (st.store.set j _).get? j = _
          rw [hgd]
          exact List.get?_set_eq_of_lt _ hlen
        · rw [keyOf_updateRec]
          rw [← hkey, hrr]
          simp only [keyOfRec, Prod.ext_iff] at hkey0
          obtain ⟨_, h2, _, _⟩ := hkey0
          simp [keyOfRec, h2]
      · refine ⟨j, rec, ?_, hkey⟩
        show (st.store.set i0 _).get? j = some rec
        rw [List.get?_set_ne _ _ (fun hc => hji hc.symm)]
        exact hrec
    | none =>
      rw [importRow_eq_create emp compParam sheetName headerKeys r row st he hm]
      have hjl : j < st.store.length := (List.get?_eq_some.mp hrec).1
      refine ⟨j, rec, ?_, hkey⟩
      show (st.store ++ _).get? j = some rec
      rw [List.get?_append hjl]
      exact hrec

/-- After importing a non-empty row, its key is carried by the store. -/
theorem importRow_self (emp : Nat) (compParam : Option CalDate)
    (sheetName : String) (headerKeys : List String) (r : Nat)
    (row : List (Option String)) (st : ImpState)
    (h : EmapGood st) (hne : rowEmpty headerKeys row = false) :
    StoreHasKey (importRow emp compParam sheetName headerKeys r row st).store
      (emp, rowCompetencia compParam (rowData headerKeys row), sheetName, r) := by
  cases hm : dget? st.emap
      (emp, rowCompetencia compParam (rowData headerKeys row), sheetName, r) with
  | some i0 =>
    rw [importRow_eq_update emp compParam sheetName headerKeys r row st i0 hne hm]
    obtain ⟨rec0, hrec0, hkey0⟩ := h _ _ hm
    have hlen : i0 < st.store.length := (List.get?_eq_some.mp hrec0).1
    have hgd : st.store.getD i0 (mkSatRec emp sheetName r (rowData headerKeys row)
        (extr_data_emissao_dict (rowData headerKeys row))
        (rowCompetencia compParam (rowData headerKeys row))) = rec0 := by
      show (st.store.get? i0).getD _ = rec0
      rw [hrec0]
      rfl
    refine ⟨i0, updateRec rec0 (rowData headerKeys row)
      (extr_data_emissao_dict (rowData headerKeys row))
      (rowCompetencia compParam (rowData headerKeys row)), ?_, ?_⟩
    · show (st.store.set i0 _).get? i0 = _
      rw [hgd]
      exact List.get?_set_eq_of_lt _ hlen
    · rw [keyOf_updateRec]
      simp only [keyOfRec, Prod.ext_iff] at hkey0
      obtain ⟨h1, _, h3, h4⟩ := hkey0
      simp [h1, h3, h4]
  | none =>
    rw [importRow_eq_create emp compParam sheetName headerKeys r row st hne hm]
    exact ⟨st.store.length,
      mkSatRec emp sheetName r (rowData headerKeys row)
        (extr_data_emissao_dict (rowData headerKeys row))
        (rowCompetencia compParam (rowData headerKeys row)),
      List.get?_concat_length _ _, keyOf_mkSatRec emp sheetName r _ _ _⟩

/-- When the row's key is already indexed, the step is an in-place update:
creations, store length and the index itself are untouched. -/
theorem importRow_update_counts (emp : Nat) (compParam : Option CalDate)
    (sheetName : String) (headerKeys : List String) (r : Nat)
    (row : List (Option String)) (st : ImpState)
    (hne : rowEmpty headerKeys row = false)
    (hsome : (dget? st.emap
      (emp, rowCompetencia compParam (rowData headerKeys row), sheetName, r)).isSome) :
    (importRow emp compParam sheetName headerKeys r row st).criados = st.criados ∧
    (importRow emp compParam sheetName headerKeys r row st).atualizados =
      st.atualizados + 1 ∧
    (importRow emp compParam sheetName headerKeys r row st).store.length =
      st.store.length ∧
    (importRow emp compParam sheetName headerKeys r row st).emap = st.emap := by
  obtain ⟨i0, hm⟩ := Option.isSome_iff_exists.mp hsome
  rw [importRow_eq_update emp compParam sheetName headerKeys r row st i0 hne hm]
  exact ⟨rfl, rfl, by simp, rfl⟩

theorem importRow_empty_counts (emp : Nat) (compParam : Option CalDate)
    (sheetName : String) (headerKeys : List String) (r : Nat)
    (row : List (Option String)) (st : ImpState)
    (he : rowEmpty headerKeys row = true) :
    (importRow emp compParam sheetName headerKeys r row st).criados = st.criados ∧
    (importRow emp compParam sheetName headerKeys r row st).atualizados =
      st.atualizados ∧
    (importRow emp compParam sheetName headerKeys r row st).store = st.store ∧
    (importRow emp compParam sheetName headerKeys r row st).emap = st.emap := by
  rw [importRow_eq_empty emp compParam sheetName headerKeys r row st he]
  exact ⟨rfl, rfl, rfl, rfl⟩

theorem importRows_good (emp : Nat) (compParam : Option CalDate)
    (sheetName : String) (headerKeys : List String) :
    ∀ (rows : List (List (Option String))) (r : Nat) (st : ImpState),
      EmapGood st →
      EmapGood (importRows emp compParam sheetName headerKeys r rows st) := by
  intro rows
  induction rows with
  | nil => intro r st h; exact h
  | cons row rest ih =>
    intro r st h
    exact ih (r + 1) _ (importRow_good emp compParam sheetName headerKeys r row st h)

theorem importRows_hasKey (emp : Nat) (compParam : Option CalDate)
    (sheetName : String) (headerKeys : List String) :
    ∀ (rows : List (List (Option String))) (r : Nat) (st : ImpState) (k0 : RKey),
      EmapGood st → StoreHasKey st.store k0 →
      StoreHasKey (importRows emp compParam sheetName headerKeys r rows st).store k0 := by
  intro rows
  induction rows with
  | nil => intro r st k0 _ hk; exact hk
  | cons row rest ih =>
    intro r st k0 h hk
    exact ih (r + 1) _ k0 (importRow_good emp compParam sheetName headerKeys r row st h)
      (importRow_hasKey emp compParam sheetName headerKeys r row st k0 h hk)

/-- After a sheet's rows are imported, every non-empty row's key is in the
store. -/
theorem importRows_keys (emp : Nat) (compParam : Option CalDate)
    (sheetName : String) (headerKeys : List String) :
    ∀ (rows : List (List (Option String))) (r : Nat) (st : ImpState),
      EmapGood st →
      ∀ k, k ∈ rowsKeys emp compParam sheetName headerKeys r rows →
        StoreHasKey (importRows emp compParam sheetName headerKeys r rows st).store k := by
  intro rows
  induction rows with
  | nil => intro r st _ k hk; simp [rowsKeys] at hk
  | cons row rest ih =>
    intro r st h k hk
    cases hre : rowEmpty headerKeys row
    case true =>
      simp only [rowsKeys, hre, if_true] at hk
      exact ih (r + 1) _
        (importRow_good emp compParam sheetName headerKeys r row st h) k hk
    case false =>
      simp only [rowsKeys, hre, Bool.false_eq_true, if_false] at hk
      rcases List.mem_cons.mp hk with hkey | hkmem
      · subst hkey
        exact importRows_hasKey emp compParam sheetName headerKeys rest (r + 1) _ _
          (importRow_good emp compParam sheetName headerKeys r row st h)
          (importRow_self emp compParam sheetName headerKeys r row st h hre)
      · exact ih (r + 1) _
          (importRow_good emp compParam sheetName headerKeys r row st h) k hkmem

/-- A fold over rows whose keys are all indexed performs only in-place
updates: no creations, unchanged store length, unchanged index. -/
theorem importRows_allPresent (emp : Nat) (compParam : Option CalDate)
    (sheetName : String) (headerKeys : List String) :
    ∀ (rows : List (List (Option String))) (r : Nat) (st : ImpState),
      (∀ k, k ∈ rowsKeys emp compParam sheetName headerKeys r rows →
        (dget? st.emap k).isSome) →
      (importRows emp compParam sheetName headerKeys r rows st).criados = st.criados ∧
      (importRows emp compParam sheetName headerKeys r rows st).atualizados =
        st.atualizados + (rowsKeys emp compParam sheetName headerKeys r rows).length ∧
      (importRows emp compParam sheetName headerKeys r rows st).store.length =
        st.store.length ∧
      (importRows emp compParam sheetName headerKeys r rows st).emap = st.emap := by
  intro rows
  induction rows with
  | nil => intro r st _; exact ⟨rfl, by simp [rowsKeys, importRows], rfl, rfl⟩
  | cons row rest ih =>
    intro r st hp
    have hunf : importRows emp compParam sheetName headerKeys r (row :: rest) st =
        importRows emp compParam sheetName headerKeys (r + 1) rest
          (importRow emp compParam sheetName headerKeys r row st) := rfl
    cases hre : rowEmpty headerKeys row
    case true =>
      have hc := importRow_empty_counts emp compParam sheetName headerKeys r row st hre
      have hp2 : ∀ k, k ∈ rowsKeys emp compParam sheetName headerKeys (r + 1) rest →
          (dget? (importRow emp compParam sheetName headerKeys r row st).emap k).isSome := by
        intro k hk
        rw [hc.2.2.2]
        exact hp k (by simp only [rowsKeys, hre, if_true]; exact hk)
      have hrest := ih (r + 1) (importRow emp compParam sheetName headerKeys r row st) hp2
      rw [hunf]
      refine ⟨?_, ?_, ?_, ?_⟩
      · rw [hrest.1, hc.1]
      · rw [hrest.2.1, hc.2.1]
        simp only [rowsKeys, hre, if_true]
      · rw [hrest.2.2.1, hc.2.2.1]
      · rw [hrest.2.2.2, hc.2.2.2]
    case false =>
      have hkey : (dget? st.emap
          (emp, rowCompetencia compParam (rowData headerKeys row), sheetName, r)).isSome := by
        apply hp
        simp only [rowsKeys, hre, Bool.false_eq_true, if_false]
        exact List.mem_cons_self _ _
      have hc := importRow_update_counts emp compParam sheetName headerKeys r row st hre hkey
      have hp2 : ∀ k, k ∈ rowsKeys emp compParam sheetName headerKeys (r + 1) rest →
          (dget? (importRow emp compParam sheetName headerKeys r row st).emap k).isSome := by
        intro k hk
        rw [hc.2.2.2]
        apply hp
        simp only [rowsKeys, hre, Bool.false_eq_true, if_false]
        exact List.mem_cons_of_mem _ hk
      have hrest := ih (r + 1) (importRow emp compParam sheetName headerKeys r row st) hp2
      rw [hunf]
      refine ⟨?_, ?_, ?_, ?_⟩
      · rw [hrest.1, hc.1]
      · rw [hrest.2.1, hc.2.1]
        simp only [rowsKeys, hre, Bool.false_eq_true, if_false, List.length_cons]
        omega
      · rw [hrest.2.2.1, hc.2.2.1]
      · rw [hrest.2.2.2, hc.2.2.2]

theorem importSheets_good (emp : Nat) (compParam : Option CalDate) :
    ∀ (wb : Workbook) (st : ImpState),
      EmapGood st → EmapGood (importSheets emp compParam wb st) := by
  intro wb
  induction wb with
  | nil => intro st h; exact h
  | cons sheet rest ih =>
    intro st h
    obtain ⟨name, sheetRows⟩ := sheet
    cases sheetRows with
    | nil => exact ih st h
    | cons headerRow dataRows =>
      exact ih _ (importRows_good emp compParam name (headerRow.map slugify_field)
        dataRows 2 st h)

theorem importSheets_hasKey (emp : Nat) (compParam : Option CalDate) :
    ∀ (wb : Workbook) (st : ImpState) (k0 : RKey),
      EmapGood st → StoreHasKey st.store k0 →
      StoreHasKey (importSheets emp compParam wb st).store k0 := by
  intro wb
  induction wb with
  | nil => intro st k0 _ hk; exact hk
  | cons sheet rest ih =>
    intro st k0 h hk
    obtain ⟨name, sheetRows⟩ := sheet
    cases sheetRows with
    | nil => exact ih st k0 h hk
    | cons headerRow dataRows =>
      exact ih _ k0
        (importRows_good emp compParam name (headerRow.map slugify_field)
          dataRows 2 st h)
        (importRows_hasKey emp compParam name (headerRow.map slugify_field)
          dataRows 2 st k0 h hk)

/-- After a whole import, every non-empty row's key is in the store. -/
theorem importSheets_keys (emp : Nat) (compParam : Option CalDate) :
    ∀ (wb : Workbook) (st : ImpState),
      EmapGood st →
      ∀ k, k ∈ wbKeys emp compParam wb →
        StoreHasKey (importSheets emp compParam wb st).store k := by
  intro wb
  induction wb with
  | nil => intro st _ k hk; simp [wbKeys] at hk
  | cons sheet rest ih =>
    intro st h k hk
    obtain ⟨name, sheetRows⟩ := sheet
    cases sheetRows with
    | nil =>
      simp only [wbKeys, List.nil_append] at hk
      exact ih st h k hk
    | cons headerRow dataRows =>
      simp only [wbKeys] at hk
      rcases List.mem_append.mp hk with hs | hr
      · exact importSheets_hasKey emp compParam rest _ k
          (importRows_good emp compParam name (headerRow.map slugify_field)
            dataRows 2 st h)
          (importRows_keys emp compParam name (headerRow.map slugify_field)
            dataRows 2 st h k hs)
      · exact ih _
          (importRows_good emp compParam name (headerRow.map slugify_field)
            dataRows 2 st h) k hr

/-- A whole import whose row keys are all indexed performs only updates. -/
theorem importSheets_allPresent (emp : Nat) (compParam : Option CalDate) :
    ∀ (wb : Workbook) (st : ImpState),
      (∀ k, k ∈ wbKeys emp compParam wb → (dget? st.emap k).isSome) →
      (importSheets emp compParam wb st).criados = st.criados ∧
      (importSheets emp compParam wb st).atualizados =
        st.atualizados + (wbKeys emp compParam wb).length ∧
      (importSheets emp compParam wb st).store.length = st.store.length ∧
      (importSheets emp compParam wb st).emap = st.emap := by
  intro wb
  induction wb with
  | nil => intro st _; exact ⟨rfl, by simp [wbKeys, importSheets], rfl, rfl⟩
  | cons sheet rest ih =>
    intro st hp
    obtain ⟨name, sheetRows⟩ := sheet
    cases sheetRows with
    | nil =>
      have hunf : importSheets emp compParam ((name, []) :: rest) st =
          importSheets emp compParam rest st := rfl
      have hrest := ih st (fun k hk => hp k (by simpa [wbKeys] using hk))
      rw [hunf]
      refine ⟨hrest.1, ?_, hrest.2.2.1, hrest.2.2.2⟩
      rw [hrest.2.1]
      simp [wbKeys]
    | cons headerRow dataRows =>
      have hunf : importSheets emp compParam ((name, headerRow :: dataRows) :: rest) st =
          importSheets emp compParam rest
            (importRows emp compParam name (headerRow.map slugify_field)
              2 dataRows st) := rfl
      have hsheet := importRows_allPresent emp compParam name
        (headerRow.map slugify_field) dataRows 2 st
        (fun k hk => hp k (by simp only [wbKeys]; exact List.mem_append_left _ hk))
      have hp2 : ∀ k, k ∈ wbKeys emp compParam rest →
          (dget? (importRows emp compParam name (headerRow.map slugify_field)
            2 dataRows st).emap k).isSome := by
        intro k hk
        rw [hsheet.2.2.2]
        exact hp k (by simp only [wbKeys]; exact List.mem_append_right _ hk)
      have hrest := ih _ hp2
      rw [hunf]
      refine ⟨?_, ?_, ?_, ?_⟩
      · rw [hrest.1, hsheet.1]
      · rw [hrest.2.1, hsheet.2.1]
        simp only [wbKeys, List.length_append]
        omega
      · rw [hrest.2.2.1, hsheet.2.2.1]
      · rw [hrest.2.2.2, hsheet.2.2.2]

/-- Claim C3: importing the same workbook twice for the same company is
idempotent — on the second run every non-empty row's key is found in the
preloaded index and becomes an update (the update count equals the number of
non-empty rows, i.e. the length of the workbook's key list), zero rows are
created, and the persisted row count is unchanged. -/
theorem import_twice_idempotent (emp : Nat) (compParam : Option CalDate)
    (wb : Workbook) (s0 : List SatRec) :
    (sat_importar emp compParam wb (sat_importar emp compParam wb s0).store).criados
      = 0 ∧
    (sat_importar emp compParam wb (sat_importar emp compParam wb s0).store).atualizados
      = (wbKeys emp compParam wb).length ∧
    (sat_importar emp compParam wb (sat_importar emp compParam wb s0).store).store.length
      = (sat_importar emp compParam wb s0).store.length := by
  have hg0 : EmapGood ⟨s0, loadMap s0, 0, 0, 0⟩ := by
    intro k i h
    exact loadMap_good s0 k i h
  have hkeys : ∀ k ∈ wbKeys emp compParam wb,
      StoreHasKey (sat_importar emp compParam wb s0).store k := by
    intro k hk
    exact importSheets_keys emp compParam wb ⟨s0, loadMap s0, 0, 0, 0⟩ hg0 k hk
  have hcov : ∀ k, k ∈ wbKeys emp compParam wb →
      (dget? (loadMap (sat_importar emp compParam wb s0).store) k).isSome := by
    intro k hk
    exact loadMap_covers _ k (hkeys k hk)
  have hall := importSheets_allPresent emp compParam wb
    ⟨(sat_importar emp compParam wb s0).store,
      loadMap (sat_importar emp compParam wb s0).store, 0, 0, 0⟩ hcov
  refine ⟨hall.1, ?_, hall.2.2.1⟩
  show (importSheets emp compParam wb
      ⟨(sat_importar emp compParam wb s0).store,
        loadMap (sat_importar emp compParam wb s0).store, 0, 0, 0⟩).atualizados =
    (wbKeys emp compParam wb).length
  rw [hall.2.1]
  simp

/-! ### Toolkit for the decimal-convention theorems -/

theorem isDigitCh_facts (c : Char) (h : isDigitCh c = true) :
    c ≠ 'R' ∧ c ≠ ' ' ∧ c ≠ ',' ∧ c ≠ '.' ∧ c ≠ '+' ∧ c ≠ '-' ∧ isWs c = false := by
  refine ⟨fun he => ?_, fun he => ?_, fun he => ?_, fun he => ?_, fun he => ?_,
    fun he => ?_, ?_⟩
  · subst he; exact absurd h (by decide)
  · subst he; exact absurd h (by decide)
  · subst he; exact absurd h (by decide)
  · subst he; exact absurd h (by decide)
  · subst he; exact absurd h (by decide)
  · subst he; exact absurd h (by decide)
  · cases hw : isWs c
    · rfl
    · exfalso
      have hd : c = ' ' ∨ c = '\t' ∨ c = '\n' ∨ c = '\r' := by
        simpa [isWs, or_assoc] using hw
      rcases hd with he | he | he | he <;> subst he <;> exact absurd h (by decide)

theorem dropWhile_eq_self {p : Char → Bool} (l : List Char)
    (h : ∀ c ∈ l, p c = false) : l.dropWhile p = l := by
  cases l with
  | nil => rfl
  | cons c rest => simp [List.dropWhile_cons, h c (List.mem_cons_self c rest)]

theorem trimWs_eq_self (l : List Char) (h : ∀ c ∈ l, isWs c = false) :
    trimWs l = l := by
  unfold trimWs trimCh
  rw [dropWhile_eq_self l h,
    dropWhile_eq_self l.reverse (fun c hc => h c (List.mem_reverse.mp hc)),
    List.reverse_reverse]

theorem removePair_eq_self (a b : Char) (l : List Char) (h : ∀ c ∈ l, c ≠ a) :
    removePair a b l = l := by
  induction l with
  | nil => rfl
  | cons c rest ih =>
    cases rest with
    | nil => rfl
    | cons d rest2 =>
      have hca : ¬ (c = a ∧ d = b) := fun hc => h c (by simp) hc.1
      show (if c = a ∧ d = b then removePair a b rest2
            else c :: removePair a b (d :: rest2)) = c :: d :: rest2
      rw [if_neg hca, ih (fun x hx => h x (List.mem_cons_of_mem _ hx))]

/-- The normalisation pipeline is the identity on clean comma-free input. -/
theorem cleanDecimal_eq_self (s : String)
    (hw : ∀ c ∈ s.data, isWs c = false)
    (hr : ∀ c ∈ s.data, c ≠ 'R')
    (hsp : ∀ c ∈ s.data, c ≠ ' ')
    (hcm : s.data.count ',' ≠ 1) :
    cleanDecimal s = s.data := by
  simp only [cleanDecimal]
  rw [trimWs_eq_self _ hw, removePair_eq_self _ _ _ hr,
    List.filter_eq_self.mpr (fun c hc => by simpa using hsp c hc), if_neg hcm]

/-- With exactly one comma, the pipeline drops dots and commutes the comma
into a decimal point. -/
theorem cleanDecimal_comma (s : String)
    (hw : ∀ c ∈ s.data, isWs c = false)
    (hr : ∀ c ∈ s.data, c ≠ 'R')
    (hsp : ∀ c ∈ s.data, c ≠ ' ')
    (hcm : s.data.count ',' = 1) :
    cleanDecimal s = (s.data.filter (fun c => c ≠ '.')).map
      (fun c => if c = ',' then '.' else c) := by
  simp only [cleanDecimal]
  rw [trimWs_eq_self _ hw, removePair_eq_self _ _ _ hr,
    List.filter_eq_self.mpr (fun c hc => by simpa using hsp c hc), if_pos hcm]

theorem takeWhile_app_stop (p : Char → Bool) (a : List Char) (x : Char)
    (b : List Char) (ha : ∀ c ∈ a, p c = true) (hx : p x = false) :
    (a ++ x :: b).takeWhile p = a ∧ (a ++ x :: b).dropWhile p = x :: b := by
  induction a with
  | nil => simp [List.takeWhile_cons, List.dropWhile_cons, hx]
  | cons c rest ih =>
    have hc := ha c (by simp)
    have ihh := ih (fun d hd => ha d (by simp [hd]))
    simp [List.takeWhile_cons, List.dropWhile_cons, hc, ihh.1, ihh.2]

theorem takeWhile_all_self (p : Char → Bool) (a : List Char)
    (ha : ∀ c ∈ a, p c = true) : a.takeWhile p = a ∧ a.dropWhile p = [] := by
  induction a with
  | nil => simp
  | cons c rest ih =>
    have hc := ha c (by simp)
    have ihh := ih (fun d hd => ha d (by simp [hd]))
    simp [List.takeWhile_cons, List.dropWhile_cons, hc, ihh.1, ihh.2]

theorem digitsVal_acc (b : List Char) :
    ∀ acc : Nat, b.foldl (fun a c => a * 10 + dig c) acc =
      acc * 10 ^ b.length + digitsVal b := by
  induction b with
  | nil => intro acc; simp [digitsVal]
  | cons c rest ih =>
    intro acc
    simp only [List.foldl_cons, List.length_cons]
    rw [ih (acc * 10 + dig c)]
    have h2 : digitsVal (c :: rest) = dig c * 10 ^ rest.length + digitsVal rest := by
      show List.foldl _ _ (c :: rest) = _
      simp only [List.foldl_cons]
      rw [ih (0 * 10 + dig c)]
      ring
    rw [h2]
    ring

theorem digitsVal_append (a b : List Char) :
    digitsVal (a ++ b) = digitsVal a * 10 ^ b.length + digitsVal b := by
  show List.foldl _ 0 (a ++ b) = _
  rw [List.foldl_append]
  exact digitsVal_acc b _

theorem dotGroups_chars :
    ∀ (n : Nat) (l : List Char), l.length ≤ n → dotGroups l = true →
      ∀ c ∈ l, isDigitCh c = true ∨ c = '.' := by
  intro n
  induction n with
  | zero =>
    intro l hl _ c hc
    rcases l with _ | ⟨c1, rest⟩
    · simp at hc
    · simp at hl
  | succ n ih =>
    intro l hl h c hc
    rcases l with _ | ⟨c1, _ | ⟨c2, _ | ⟨c3, _ | ⟨c4, rest⟩⟩⟩⟩
    · simp at hc
    · simp [dotGroups] at h
    · simp [dotGroups] at h
    · simp [dotGroups] at h
    · simp only [dotGroups, Bool.and_eq_true, decide_eq_true_eq] at h
      obtain ⟨⟨⟨⟨h1, h2⟩, h3⟩, h4⟩, h5⟩ := h
      simp only [List.mem_cons] at hc
      rcases hc with hc | hc | hc | hc | hc
      · exact Or.inr (hc.trans h1)
      · exact Or.inl (hc ▸ h2)
      · exact Or.inl (hc ▸ h3)
      · exact Or.inl (hc ▸ h4)
      · exact ih rest (by simp at hl; omega) h5 c hc

theorem intPartA_chars (l : List Char) (h : intPartA l = true) :
    ∀ c ∈ l, isDigitCh c = true ∨ c = '.' := by
  simp only [intPartA] at h
  intro c hc
  rw [← List.takeWhile_append_dropWhile isDigitCh l] at hc
  rcases List.mem_append.mp hc with h1 | h1
  · exact Or.inl (List.mem_takeWhile_imp h1)
  · by_cases hd : l.dropWhile isDigitCh = []
    · rw [hd] at h1; simp at h1
    · rw [if_neg hd] at h
      simp only [Bool.and_eq_true] at h
      exact dotGroups_chars (l.dropWhile isDigitCh).length _ le_rfl h.2 c h1

theorem intPartA_digits_ne (l : List Char) (h : intPartA l = true) :
    l.filter isDigitCh ≠ [] := by
  simp only [intPartA] at h
  have hg : 1 ≤ (l.takeWhile isDigitCh).length := by
    by_cases hd : l.dropWhile isDigitCh = []
    · rw [if_pos hd] at h; simpa using h
    · rw [if_neg hd] at h
      simp only [Bool.and_eq_true, decide_eq_true_eq] at h
      exact h.1.1
  obtain ⟨c, hc⟩ : ∃ c, c ∈ l.takeWhile isDigitCh := by
    cases hcl : l.takeWhile isDigitCh with
    | nil => rw [hcl] at hg; simp at hg
    | cons x xs => exact ⟨x, List.mem_cons_self x xs⟩
  have hcd : isDigitCh c = true := List.mem_takeWhile_imp hc
  have hcl2 : c ∈ l := by
    rw [← List.takeWhile_append_dropWhile isDigitCh l]
    exact List.mem_append_left _ hc
  intro hnil
  have hmem : c ∈ l.filter isDigitCh := List.mem_filter.mpr ⟨hcl2, hcd⟩
  rw [hnil] at hmem
  simp at hmem

/-- `decimalCore?` when the digit scan consumes everything. -/
theorem decimalCore_eq_nil (l : List Char) (h : l.dropWhile isDigitCh = []) :
    decimalCore? l =
      (if l.takeWhile isDigitCh = [] then none
       else expPart? ⟨(digitsVal (l.takeWhile isDigitCh) : Int), 1⟩ []) := by
  simp only [decimalCore?]
  rw [h]

/-- `decimalCore?` when the digit scan stops at a decimal point. -/
theorem decimalCore_eq_dot (l b : List Char) (h : l.dropWhile isDigitCh = '.' :: b) :
    decimalCore? l =
      (if l.takeWhile isDigitCh = [] ∧ b.takeWhile isDigitCh = [] then none
       else expPart?
         ⟨(digitsVal (l.takeWhile isDigitCh ++ b.takeWhile isDigitCh) : Int),
          10 ^ (b.takeWhile isDigitCh).length⟩ (b.dropWhile isDigitCh)) := by
  simp only [decimalCore?]
  rw [h]
  rfl

/-- `decimalLit?` on input led by a digit parses the unsigned core. -/
theorem decimalLit_eq_core (s : String) (c : Char) (rest : List Char)
    (h : trimWs s.data = c :: rest) (hp : c ≠ '+') (hm : c ≠ '-') :
    decimalLit? s = decimalCore? (c :: rest) := by
  simp only [decimalLit?]
  rw [h]
  show (if c = '+' then decimalCore? rest
        else if c = '-' then Option.map PyDec.neg (decimalCore? rest)
        else decimalCore? (c :: rest)) = decimalCore? (c :: rest)
  rw [if_neg hp, if_neg hm]

theorem dropWhile_ne_mem (a : Char) :
    ∀ l : List Char, a ∈ l →
      ∃ t, l.dropWhile (fun c => decide (c ≠ a)) = a :: t := by
  intro l hl
  induction l with
  | nil => simp at hl
  | cons c rest ih =>
    by_cases hc : c = a
    · subst hc
      exact ⟨rest, by simp [List.dropWhile_cons]⟩
    · have hm : a ∈ rest := by
        rcases List.mem_cons.mp hl with h | h
        · exact absurd h.symm hc
        · exact h
      obtain ⟨t, ht⟩ := ih hm
      exact ⟨t, by rw [List.dropWhile_cons, if_pos (by simp [hc])]; exact ht⟩

theorem map_id_of (f : Char → Char) (l : List Char) (h : ∀ c ∈ l, f c = c) :
    l.map f = l := by
  induction l with
  | nil => rfl
  | cons c rest ih => simp [h c (by simp), ih (fun d hd => h d (by simp [hd]))]

theorem count_comma_zero (l : List Char) (h : ∀ c ∈ l, c ≠ ',') :
    l.count ',' = 0 :=
  List.count_eq_zero.mpr (fun hm => h ',' hm rfl)

/-- Value of an unnormalised integer-plus-fraction digit pair. -/
theorem toRat_split (a b : List Char) :
    PyDec.toRat ⟨(digitsVal (a ++ b) : Int), 10 ^ b.length⟩ =
      (digitsVal a : ℚ) + (digitsVal b : ℚ) / 10 ^ b.length := by
  simp only [PyDec.toRat, digitsVal_append]
  have h10 : ((10 : ℚ) ^ b.length) ≠ 0 := by positivity
  push_cast
  field_simp

/-- A pure digit string parses to its value over denominator 1. -/
theorem decimalLit_digits (I : List Char)
    (hI : ∀ c ∈ I, isDigitCh c = true) (hne : I ≠ []) :
    decimalLit? ⟨I⟩ = some ⟨(digitsVal I : Int), 1⟩ := by
  obtain ⟨c0, it, rfl⟩ : ∃ c0 it, I = c0 :: it := by
    cases I with
    | nil => exact absurd rfl hne
    | cons a b => exact ⟨a, b, rfl⟩
  have hws : ∀ c ∈ c0 :: it, isWs c = false :=
    fun c hc => (isDigitCh_facts c (hI c hc)).2.2.2.2.2.2
  have htr : trimWs (String.mk (c0 :: it)).data = c0 :: it := trimWs_eq_self _ hws
  have hd0 := isDigitCh_facts c0 (hI c0 (by simp))
  rw [decimalLit_eq_core _ c0 it htr hd0.2.2.2.2.1 hd0.2.2.2.2.2.1]
  have hall := takeWhile_all_self isDigitCh (c0 :: it) hI
  rw [decimalCore_eq_nil _ hall.2, if_neg (by rw [hall.1]; simp), hall.1]
  rfl

/-- Digits, a decimal point, digits: parses to the whole digit string over
the power-of-ten denominator given by the fractional length. -/
theorem decimalLit_digits_dot (I F : List Char)
    (hI : ∀ c ∈ I, isDigitCh c = true) (hF : ∀ c ∈ F, isDigitCh c = true)
    (hne : I ≠ []) :
    decimalLit? ⟨I ++ '.' :: F⟩ =
      some ⟨(digitsVal (I ++ F) : Int), 10 ^ F.length⟩ := by
  obtain ⟨c0, it, rfl⟩ : ∃ c0 it, I = c0 :: it := by
    cases I with
    | nil => exact absurd rfl hne
    | cons a b => exact ⟨a, b, rfl⟩
  have hws : ∀ c ∈ (c0 :: it) ++ '.' :: F, isWs c = false := by
    intro c hc
    rcases List.mem_append.mp hc with h | h
    · exact (isDigitCh_facts c (hI c h)).2.2.2.2.2.2
    · rcases List.mem_cons.mp h with h | h
      · subst h; decide
      · exact (isDigitCh_facts c (hF c h)).2.2.2.2.2.2
  have htr : trimWs (String.mk ((c0 :: it) ++ '.' :: F)).data =
      c0 :: (it ++ '.' :: F) := by
    rw [trimWs_eq_self _ hws]; rfl
  have hd0 := isDigitCh_facts c0 (hI c0 (by simp))
  rw [decimalLit_eq_core _ c0 (it ++ '.' :: F) htr hd0.2.2.2.2.1 hd0.2.2.2.2.2.1]
  show decimalCore? ((c0 :: it) ++ '.' :: F) = _
  have hstop := takeWhile_app_stop isDigitCh (c0 :: it) '.' F hI (by decide)
  rw [decimalCore_eq_dot _ F hstop.2]
  have hFall := takeWhile_all_self isDigitCh F hF
  rw [hstop.1, hFall.1, hFall.2, if_neg (by simp)]
  rfl

/-- Convention `1234.56` is parsed to its intended exact value. -/
theorem parse_decimal_convB_exact (s : String) (h : convB s = true) :
    (parse_decimal (some s)).toRat = intendedB s := by
  simp only [convB, Bool.and_eq_true, Bool.or_eq_true, decide_eq_true_eq,
    List.all_eq_true] at h
  obtain ⟨hne, hrest⟩ := h
  have hIdig : ∀ c ∈ s.data.takeWhile isDigitCh, isDigitCh c = true :=
    fun c hc => List.mem_takeWhile_imp hc
  rcases hrest with hrest | ⟨⟨hhead, _⟩, htdig⟩
  · have hdata : s.data = s.data.takeWhile isDigitCh := by
      conv_lhs => rw [← List.takeWhile_append_dropWhile isDigitCh s.data]
      rw [hrest, List.append_nil]
    have hall : ∀ c ∈ s.data, isDigitCh c = true := by
      intro c hc; rw [hdata] at hc; exact hIdig c hc
    have hcl : cleanDecimal s = s.data := cleanDecimal_eq_self s
      (fun c hc => (isDigitCh_facts c (hall c hc)).2.2.2.2.2.2)
      (fun c hc => (isDigitCh_facts c (hall c hc)).1)
      (fun c hc => (isDigitCh_facts c (hall c hc)).2.1)
      (by rw [count_comma_zero s.data
          (fun c hc => (isDigitCh_facts c (hall c hc)).2.2.1)]; decide)
    have hval : parse_decimal (some s) =
        ⟨(digitsVal (s.data.takeWhile isDigitCh) : Int), 1⟩ := by
      show (decimalLit? ⟨cleanDecimal s⟩).getD pzero = _
      rw [hcl, show String.mk s.data =
        String.mk (s.data.takeWhile isDigitCh) from congrArg String.mk hdata]
      rw [decimalLit_digits _ hIdig hne]
      rfl
    rw [hval]
    simp [intendedB, PyDec.toRat, hrest, digitsVal]
  · obtain ⟨tl, htl⟩ : ∃ tl, s.data.dropWhile isDigitCh = '.' :: tl := by
      cases hr : s.data.dropWhile isDigitCh with
      | nil => rw [hr] at hhead; simp at hhead
      | cons a b =>
        rw [hr] at hhead
        simp only [List.head?_cons, Option.some_inj] at hhead
        exact ⟨b, by rw [hhead]⟩
    have htdig' : ∀ c ∈ tl, isDigitCh c = true := by
      intro c hc
      exact htdig c (by rw [htl]; exact hc)
    have hdata : s.data = s.data.takeWhile isDigitCh ++ '.' :: tl := by
      conv_lhs => rw [← List.takeWhile_append_dropWhile isDigitCh s.data]
      rw [htl]
    have hallc : ∀ c ∈ s.data, isDigitCh c = true ∨ c = '.' := by
      intro c hc
      rw [hdata] at hc
      rcases List.mem_append.mp hc with h | h
      · exact Or.inl (hIdig c h)
      · rcases List.mem_cons.mp h with h | h
        · exact Or.inr h
        · exact Or.inl (htdig' c h)
    have hcl : cleanDecimal s = s.data := by
      refine cleanDecimal_eq_self s ?_ ?_ ?_ ?_
      · intro c hc
        rcases hallc c hc with h | h
        · exact (isDigitCh_facts c h).2.2.2.2.2.2
        · subst h; decide
      · intro c hc
        rcases hallc c hc with h | h
        · exact (isDigitCh_facts c h).1
        · subst h; decide
      · intro c hc
        rcases hallc c hc with h | h
        · exact (isDigitCh_facts c h).2.1
        · subst h; decide
      · rw [count_comma_zero s.data (fun c hc => by
          rcases hallc c hc with h | h
          · exact (isDigitCh_facts c h).2.2.1
          · subst h; decide)]
        decide
    have hval : parse_decimal (some s) =
        ⟨(digitsVal (s.data.takeWhile isDigitCh ++ tl) : Int), 10 ^ tl.length⟩ := by
      show (decimalLit? ⟨cleanDecimal s⟩).getD pzero = _
      rw [hcl, show String.mk s.data =
        String.mk (s.data.takeWhile isDigitCh ++ '.' :: tl) from
          congrArg String.mk hdata]
      rw [decimalLit_digits_dot _ _ hIdig htdig' hne]
      rfl
    rw [hval, toRat_split]
    simp [intendedB, htl]

/-- Convention `1.234,56` is parsed to its intended exact value. -/
theorem parse_decimal_convA_exact (s : String) (h : convA s = true) :
    (parse_decimal (some s)).toRat = intendedA s := by
  simp only [convA, Bool.and_eq_true, decide_eq_true_eq, List.all_eq_true] at h
  obtain ⟨hcnt, hintA, hfne, hfdig⟩ := h
  have hmem : ',' ∈ s.data := by
    by_contra hm
    rw [List.count_eq_zero.mpr hm] at hcnt
    exact absurd hcnt (by decide)
  obtain ⟨frac', hdw⟩ := dropWhile_ne_mem ',' s.data hmem
  have hfdig' : ∀ c ∈ frac', isDigitCh c = true := by
    intro c hc
    exact hfdig c (by rw [hdw]; exact hc)
  have hdata : s.data =
      s.data.takeWhile (fun c => decide (c ≠ ',')) ++ ',' :: frac' := by
    conv_lhs =>
      rw [← List.takeWhile_append_dropWhile (fun c => decide (c ≠ ',')) s.data]
    rw [hdw]
  have htake : ∀ c ∈ s.data.takeWhile (fun c => decide (c ≠ ',')),
      isDigitCh c = true ∨ c = '.' :=
    intPartA_chars _ hintA
  have hallc : ∀ c ∈ s.data, isDigitCh c = true ∨ c = '.' ∨ c = ',' := by
    intro c hc
    rw [hdata] at hc
    rcases List.mem_append.mp hc with h | h
    · rcases htake c h with h1 | h1
      · exact Or.inl h1
      · exact Or.inr (Or.inl h1)
    · rcases List.mem_cons.mp h with h1 | h1
      · exact Or.inr (Or.inr h1)
      · exact Or.inl (hfdig' c h1)
  have hcl : cleanDecimal s =
      (s.data.filter (fun c => decide (c ≠ '.'))).map
        (fun c => if c = ',' then '.' else c) := by
    refine cleanDecimal_comma s ?_ ?_ ?_ hcnt
    · intro c hc
      rcases hallc c hc with h | h | h
      · exact (isDigitCh_facts c h).2.2.2.2.2.2
      · subst h; decide
      · subst h; decide
    · intro c hc
      rcases hallc c hc with h | h | h
      · exact (isDigitCh_facts c h).1
      · subst h; decide
      · subst h; decide
    · intro c hc
      rcases hallc c hc with h | h | h
      · exact (isDigitCh_facts c h).2.1
      · subst h; decide
      · subst h; decide
  have hfilter : s.data.filter (fun c => decide (c ≠ '.')) =
      ((s.data.takeWhile (fun c => decide (c ≠ ','))).filter isDigitCh) ++
        ',' :: frac' := by
    conv_lhs => rw [hdata]
    rw [List.filter_append]
    congr 1
    · refine List.filter_congr ?_
      intro c hc
      rcases htake c hc with h | h
      · simp [(isDigitCh_facts c h).2.2.2.1, h]
      · subst h; decide
    · have hfr : List.filter (fun c => decide (c ≠ '.')) frac' = frac' :=
        List.filter_eq_self.mpr (fun c hc => by
          simp [(isDigitCh_facts c (hfdig' c hc)).2.2.2.1])
      rw [List.filter_cons, if_pos (by decide), hfr]
  have hmap : (((s.data.takeWhile (fun c => decide (c ≠ ','))).filter isDigitCh)
        ++ ',' :: frac').map (fun c => if c = ',' then '.' else c) =
      ((s.data.takeWhile (fun c => decide (c ≠ ','))).filter isDigitCh) ++
        '.' :: frac' := by
    rw [List.map_append]
    congr 1
    · refine map_id_of _ _ ?_
      intro c hc
      have hd := List.of_mem_filter hc
      simp [(isDigitCh_facts c hd).2.2.1]
    · rw [List.map_cons]
      simp only [if_pos rfl]
      congr 1
      refine map_id_of _ _ ?_
      intro c hc
      simp [(isDigitCh_facts c (hfdig' c hc)).2.2.1]
  have hIdig : ∀ c ∈ (s.data.takeWhile (fun c => decide (c ≠ ','))).filter
      isDigitCh, isDigitCh c = true :=
    fun c hc => List.of_mem_filter hc
  have hval : parse_decimal (some s) =
      ⟨(digitsVal (((s.data.takeWhile (fun c => decide (c ≠ ','))).filter
          isDigitCh) ++ frac') : Int), 10 ^ frac'.length⟩ := by
    show (decimalLit? ⟨cleanDecimal s⟩).getD pzero = _
    rw [hcl, hfilter, hmap,
      decimalLit_digits_dot _ _ hIdig hfdig' (intPartA_digits_ne _ hintA)]
    rfl
  rw [hval, toRat_split]
  simp only [intendedA]
  rw [hdw, List.tail_cons]

/-- **C8.** `_parse_decimal` (views.py 51-60) is total and exact on the two
documented conventions: `None` maps to zero; a `1.234,56`-convention string
maps to its intended exact rational value; a `1234.56`-convention string maps
to its intended exact rational value; and any input whose normalised form
fails to parse as a decimal literal maps to exactly zero.  (The claim's
further assertion that EVERY input outside the two conventions maps to zero
is refuted separately.) -/
theorem parse_decimal_exact_on_conventions :
    parse_decimal none = pzero ∧
    (∀ s, convA s = true → (parse_decimal (some s)).toRat = intendedA s) ∧
    (∀ s, convB s = true → (parse_decimal (some s)).toRat = intendedB s) ∧
    (∀ s, decimalLit? ⟨cleanDecimal s⟩ = none → parse_decimal (some s) = pzero) :=
  ⟨rfl, parse_decimal_convA_exact, parse_decimal_convB_exact,
   fun s h => by
     show (decimalLit? ⟨cleanDecimal s⟩).getD pzero = pzero
     rw [h]
     rfl⟩

/-- Witness: the two convention clauses and the failure clause of the C8
theorem hold at concrete inputs. -/
theorem parse_decimal_exact_on_conventions_witness :
    (parse_decimal (some "1.234,56")).toRat = intendedA "1.234,56" ∧
    (parse_decimal (some "1234.56")).toRat = intendedB "1234.56" ∧
    parse_decimal (some "abc") = pzero :=
  ⟨parse_decimal_exact_on_conventions.2.1 "1.234,56" (by decide),
   parse_decimal_exact_on_conventions.2.2.1 "1234.56" (by decide),
   parse_decimal_exact_on_conventions.2.2.2 "abc" (by decide)⟩

/-- Counterexample to C8 as stated: `"1 2"` is in neither convention, yet
after space-stripping it parses to 12, not zero. -/
theorem parse_decimal_nonconvention_counterexample :
    convA "1 2" = false ∧ convB "1 2" = false ∧
    parse_decimal (some "1 2") = ⟨12, 1⟩ ∧
    (parse_decimal (some "1 2")).isZero = false :=
  ⟨by decide, by decide, by decide, by decide⟩

end SatQuestor
